import Mathlib

/-!
# ClientPSMoveAPI: message pipeline and controller view registry

A shallow embedding of `src/psmoveclient/ClientPSMoveAPI.cpp`.

* `std::map<int, ClientControllerView *>` is a list of key/pointer pairs with the
  `find` / `insert` / `erase` operations of `std::map`.
* `ClientControllerView` objects live in an explicit heap (address ↦ object); a view
  handle is an address.  Dereferencing an address that holds no live object is a fault.
* `assert` is modelled as enabled: a failed assertion is a fault and produces no state.
* `ResponsePtr` is a nullable shared pointer: `Option Response`.
* Log output is not part of the state.
* `ClientPSMoveAPI` is the static pointer `m_implementation_ptr`; constants of the
  missing header (`INVALID_REQUEST_ID`, `includeRawSensorData`, `sizeof(Message)`) are
  parameters of the functions that use them.
* Unsigned machine integers are `Fin 2^w`; the float of `set_controller_rumble` is
  represented by the integer it is converted to.
-/

namespace PSMove

/-! ## Faults -/

/-- The two ways an operation can abort instead of returning. -/
inductive Fault where
  /-- an `assert(...)` in the source evaluated to false -/
  | assertion_failed
  /-- a null or dangling pointer was dereferenced or deleted -/
  | invalid_pointer
deriving DecidableEq, Repr

/-! ## `std::map<int, T>` -/

/-- The `std::map::find` lookup: the value stored under key `k`, if any. -/
def map_find {α : Type} : List (Int × α) → Int → Option α
  | [], _ => none
  | (k', v) :: rest, k => if k' = k then some v else map_find rest k

/-- The `std::map::insert` operation: no effect when the key is present, otherwise the pair is
placed in key order. -/
def map_insert {α : Type} : List (Int × α) → Int → α → List (Int × α)
  | [], k, v => [(k, v)]
  | (k', v') :: rest, k, v =>
    if k = k' then (k', v') :: rest
    else if k < k' then (k, v) :: (k', v') :: rest
    else (k', v') :: map_insert rest k v

/-- The `std::map::erase(iterator)` operation for the iterator returned by `find(k)`: removes that
one entry. -/
def map_erase {α : Type} : List (Int × α) → Int → List (Int × α)
  | [], _ => []
  | (k', v) :: rest, k => if k' = k then rest else (k', v) :: map_erase rest k

/-- The keys of a map, in storage order. -/
def map_keys {α : Type} (m : List (Int × α)) : List Int := m.map Prod.fst

/-! ## Protocol values -/

/-- Modelled from the spec: `PSMoveProtocol.pb.h` is not among the sources.  The
response type discriminator: the three notification kinds that
`handle_notification` names in its `switch`, and every other value of the enum. -/
inductive Response_ResponseType where
  | CONTROLLER_LIST_UPDATED
  | TRACKER_LIST_UPDATED
  | HMD_LIST_UPDATED
  | other (tag : Nat)
deriving DecidableEq, Repr

/-- Modelled from the spec: `PSMoveProtocol.pb.h` is not among the sources.  A decoded
`PSMoveProtocol::Response` object: `addr` is the address of the object (what
`ResponsePtr::get()` returns), `request_id` and `type` are the two fields the client
reads. -/
structure Response where
  addr : Nat
  request_id : Int
  type : Response_ResponseType
deriving DecidableEq, Repr

/-- The type `ResponsePtr`: a shared pointer to a `Response`, possibly null. -/
abbrev ResponsePtr := Option Response

/-- The result of `ResponsePtr::get()` cast to `const void *`, with `nullptr` for a null pointer:
the expression `(bool)p ? static_cast<const void *>(p.get()) : nullptr`. -/
def ResponsePtr.handle (p : ResponsePtr) : Option Nat := p.map Response.addr

/-- Modelled from the spec: `PSMoveProtocol.pb.h` is not among the sources.  A decoded
controller data frame: the device id and the device state it carries. -/
structure ControllerDataFrame where
  controller_id : Int
  payload : Nat
deriving DecidableEq, Repr

/-- Modelled from the spec: `PSMoveProtocol.pb.h` is not among the sources.  The
request type discriminator: the five command kinds the client builds, and every
other value of the enum. -/
inductive Request_RequestType where
  | START_CONTROLLER_DATA_STREAM
  | STOP_CONTROLLER_DATA_STREAM
  | SET_RUMBLE
  | SET_LED_COLOR
  | RESET_POSE
  | other (tag : Nat)
deriving DecidableEq, Repr

/-- Modelled from the spec: the `request_start_psmove_data_stream` part of a
request. -/
structure RequestStartPSMoveDataStream where
  controller_id : Int
  include_raw_sensor_data : Bool
deriving DecidableEq, Repr

/-- Modelled from the spec: the `request_rumble` part of a request. -/
structure RequestRumble where
  controller_id : Int
  rumble : Int
deriving DecidableEq, Repr

/-- Modelled from the spec: the `set_led_color_request` part of a request. -/
structure RequestSetLedColor where
  controller_id : Int
  r : Int
  g : Int
  b : Int
deriving DecidableEq, Repr

/-- Modelled from the spec: `PSMoveProtocol.pb.h` is not among the sources.  An
outgoing `PSMoveProtocol::Request`: its type, its request id and the parts the
command functions fill in (a part that was never touched is absent). -/
structure Request where
  type : Request_RequestType
  request_id : Int
  request_start_psmove_data_stream : Option RequestStartPSMoveDataStream
  request_stop_psmove_data_stream_controller_id : Option Int
  request_rumble : Option RequestRumble
  set_led_color_request : Option RequestSetLedColor
  reset_pose_controller_id : Option Int
deriving DecidableEq, Repr

/-- The object `new PSMoveProtocol::Request()` after `set_type(type)`: no part is
present yet. -/
def Request.create (type : Request_RequestType) : Request :=
  { type := type
    request_id := 0
    request_start_psmove_data_stream := none
    request_stop_psmove_data_stream_controller_id := none
    request_rumble := none
    set_led_color_request := none
    reset_pose_controller_id := none }

/-- The conversion `static_cast<int>(x)` of an `unsigned char`. -/
def static_cast_int_of_uchar (x : Fin 256) : Int := (x.val : Int)

/-- The conversion `static_cast<int>(x)` of a 32-bit `unsigned`: values from 2^31 on
wrap to the negative range. -/
def static_cast_int_of_unsigned (x : Fin 4294967296) : Int :=
  if x.val < 2147483648 then (x.val : Int) else (x.val : Int) - 4294967296

/-! ## Controller views -/

/-- Modelled from the spec: `ClientControllerView.h` is not among the sources.  A
view has a device id, a listener count (an integer with no upper bound) and the
most recently applied device state. -/
structure ClientControllerView where
  ControllerID : Int
  ListenerCount : Int
  state : Option ControllerDataFrame
deriving DecidableEq, Repr

/-- Modelled from the spec: the constructor `ClientControllerView(ControllerID)` of
the missing `ClientControllerView.h`; a fresh view has no listener and no state. -/
def ClientControllerView.create (ControllerID : Int) : ClientControllerView :=
  { ControllerID := ControllerID, ListenerCount := 0, state := none }

/-- Modelled from the spec: `IncListenerCount` of the missing
`ClientControllerView.h`. -/
def ClientControllerView.IncListenerCount (v : ClientControllerView) : ClientControllerView :=
  { v with ListenerCount := v.ListenerCount + 1 }

/-- Modelled from the spec: `DecListenerCount` of the missing
`ClientControllerView.h`. -/
def ClientControllerView.DecListenerCount (v : ClientControllerView) : ClientControllerView :=
  { v with ListenerCount := v.ListenerCount - 1 }

/-- Modelled from the spec: `ApplyControllerDataFrame` of the missing
`ClientControllerView.h`; the frame overwrites the view state (last write wins). -/
def ClientControllerView.ApplyControllerDataFrame (v : ClientControllerView)
    (data_frame : ControllerDataFrame) : ClientControllerView :=
  { v with state := some data_frame }

/-- The free store holding the `ClientControllerView` objects: the live objects by
address, and the address the next `new` returns. -/
structure ViewHeap where
  objs : List (Nat × ClientControllerView)
  next : Nat
deriving DecidableEq, Repr

/-- Dereference: the object at address `p`, if `p` is live. -/
def heap_lookup : List (Nat × ClientControllerView) → Nat → Option ClientControllerView
  | [], _ => none
  | (q, v) :: rest, p => if q = p then some v else heap_lookup rest p

/-- Dereference: the object at address `p`, if `p` is live. -/
def ViewHeap.read (h : ViewHeap) (p : Nat) : Option ClientControllerView :=
  heap_lookup h.objs p

/-- Replace the object stored at address `p` by `v`. -/
def heap_store : List (Nat × ClientControllerView) → Nat → ClientControllerView →
    List (Nat × ClientControllerView)
  | [], _, _ => []
  | (q, w) :: rest, p, v => if q = p then (q, v) :: rest else (q, w) :: heap_store rest p v

/-- Drop the object stored at address `p`. -/
def heap_remove : List (Nat × ClientControllerView) → Nat → List (Nat × ClientControllerView)
  | [], _ => []
  | (q, w) :: rest, p => if q = p then heap_remove rest p else (q, w) :: heap_remove rest p

/-- Store `v` into the object at address `p`. -/
def ViewHeap.write (h : ViewHeap) (p : Nat) (v : ClientControllerView) : ViewHeap :=
  { h with objs := heap_store h.objs p v }

/-- The expression `new ClientControllerView(...)`: a fresh address holding `v`. -/
def ViewHeap.alloc (h : ViewHeap) (v : ClientControllerView) : Nat × ViewHeap :=
  (h.next, { objs := (h.next, v) :: h.objs, next := h.next + 1 })

/-- The statement `delete p`: the object at `p` is no longer live. -/
def ViewHeap.delete (h : ViewHeap) (p : Nat) : ViewHeap :=
  { h with objs := heap_remove h.objs p }

/-! ## Messages -/

/-- Modelled from the spec: `ClientPSMoveAPI.h` is not among the sources.  The
`eventKind` enumeration of the message layout. -/
inductive eClientPSMoveAPIEvent where
  | opaqueServiceEvent
  | controllerListUpdated
  | trackerListUpdated
  | hmdListUpdated
  | connectedToService
  | failedToConnectToService
  | disconnectedFromService
deriving DecidableEq, Repr

/-- Modelled from the spec: `ClientPSMoveAPI.h` is not among the sources.  The result
code of a resolved request, an enum value kept as its integer. -/
abbrev eClientPSMoveResultCode := Int

/-- The type `ClientPSMoveAPI::t_request_id`. -/
abbrev t_request_id := Int

/-- Modelled from the spec: `ClientPSMoveAPI.h` is not among the sources.
`ClientPSMoveAPI::Message`, a tagged union.  The source zeroes the whole struct and
then sets `payload_type` and the fields of one branch, so a message is determined by
its tag and that branch. -/
inductive Message where
  | response (request_id : t_request_id) (result_code : eClientPSMoveResultCode)
      (response_handle : Option Nat)
  | event (event_type : eClientPSMoveAPIEvent) (event_data_handle : Option Nat)
deriving DecidableEq, Repr

/-! ## Collaborators -/

/-- Modelled from the spec: `ClientRequestManager.h` is not among the sources.  The
correlator hands out increasing request ids. -/
structure ClientRequestManager where
  next_request_id : Int
  /-- the requests handed to the transport so far, oldest first -/
  sent : List Request
deriving DecidableEq, Repr

/-- Modelled from the spec: `ClientRequestManager::send_request` of the missing
`ClientRequestManager.h` assigns the next unused request id to the outgoing request
and hands it to the transport; it returns the request as stamped. -/
def ClientRequestManager.send_request (rm : ClientRequestManager) (request : Request) :
    Request × ClientRequestManager :=
  let stamped : Request := { request with request_id := rm.next_request_id }
  (stamped, { next_request_id := rm.next_request_id + 1, sent := rm.sent ++ [stamped] })

/-- Modelled from the spec: `ClientNetworkManager.h` is not among the sources.  The
transport knows its connection target; `startup_calls` counts how often it was asked
to connect. -/
structure ClientNetworkManager where
  host : String
  port : String
  startup_calls : Nat
deriving DecidableEq, Repr

/-- Modelled from the spec: `ClientNetworkManager::startup` of the missing
`ClientNetworkManager.h` tries to open the connection and reports whether that
worked; `connects` is what the network lets it report. -/
def ClientNetworkManager.startup (nm : ClientNetworkManager) (connects : Bool) :
    Bool × ClientNetworkManager :=
  (connects, { nm with startup_calls := nm.startup_calls + 1 })

/-! ## `ClientPSMoveAPIImpl` -/

/-- The members of `ClientPSMoveAPIImpl`, together with the free store its views
live in. -/
structure ClientPSMoveAPIImpl where
  m_request_manager : ClientRequestManager
  m_network_manager : ClientNetworkManager
  m_controller_view_map : List (Int × Nat)
  m_message_queue : List Message
  m_response_reference_cache : List Response
  m_event_reference_cache : List Response
  heap : ViewHeap
deriving DecidableEq, Repr

/-- The constructor `ClientPSMoveAPIImpl(host, port)`: empty registry, queue and
caches. -/
def ClientPSMoveAPIImpl.create (host port : String) : ClientPSMoveAPIImpl :=
  { m_request_manager := { next_request_id := 1, sent := [] }
    m_network_manager := { host := host, port := port, startup_calls := 0 }
    m_controller_view_map := []
    m_message_queue := []
    m_response_reference_cache := []
    m_event_reference_cache := []
    heap := { objs := [], next := 0 } }

/-- The method `ClientPSMoveAPIImpl::allocate_controller_view`: returns the view handle and the
new state. -/
def allocate_controller_view (s : ClientPSMoveAPIImpl) (ControllerID : Int) :
    Except Fault (Nat × ClientPSMoveAPIImpl) :=
  -- Use the same view if one already exists for the given controller id
  let found : Nat × ClientPSMoveAPIImpl :=
    match map_find s.m_controller_view_map ControllerID with
    | some view => (view, s)
    | none =>
      -- Create a new initialized controller view and add it to the map
      let fresh := s.heap.alloc (ClientControllerView.create ControllerID)
      (fresh.1, { s with
        heap := fresh.2
        m_controller_view_map := map_insert s.m_controller_view_map ControllerID fresh.1 })
  -- view->IncListenerCount()
  match found.2.heap.read found.1 with
  | none => .error .invalid_pointer
  | some v =>
    .ok (found.1, { found.2 with heap := found.2.heap.write found.1 v.IncListenerCount })

/-- The method `ClientPSMoveAPIImpl::free_controller_view`. -/
def free_controller_view (s : ClientPSMoveAPIImpl) (view : Nat) :
    Except Fault ClientPSMoveAPIImpl :=
  -- view->GetControllerID()
  match s.heap.read view with
  | none => .error .invalid_pointer
  | some v =>
    match map_find s.m_controller_view_map v.ControllerID with
    | none => .error .assertion_failed
    | some entry =>
      -- view->DecListenerCount()
      let heap1 := s.heap.write view v.DecListenerCount
      if v.DecListenerCount.ListenerCount ≤ 0 then
        -- delete view_entry->second; erase(view_entry)
        match heap1.read entry with
        | none => .error .invalid_pointer
        | some _ =>
          .ok { s with
            heap := heap1.delete entry
            m_controller_view_map := map_erase s.m_controller_view_map v.ControllerID }
      else
        .ok { s with heap := heap1 }

/-- The method `ClientPSMoveAPIImpl::handle_data_frame`. -/
def handle_data_frame (s : ClientPSMoveAPIImpl) (data_frame : ControllerDataFrame) :
    Except Fault ClientPSMoveAPIImpl :=
  match map_find s.m_controller_view_map data_frame.controller_id with
  | some view =>
    match s.heap.read view with
    | none => .error .invalid_pointer
    | some v => .ok { s with heap := s.heap.write view (v.ApplyControllerDataFrame data_frame) }
  | none => .ok s

/-- The method `ClientPSMoveAPIImpl::enqueue_response_message` (the request manager callback,
with `userdata` the pipeline itself). -/
def enqueue_response_message (s : ClientPSMoveAPIImpl)
    (result_code : eClientPSMoveResultCode) (request_id : t_request_id)
    (response : ResponsePtr) : ClientPSMoveAPIImpl :=
  let message := Message.response request_id result_code (ResponsePtr.handle response)
  -- Add the message to the message queue
  let s1 := { s with m_message_queue := s.m_message_queue ++ [message] }
  -- Maintain a reference to the response until the next update
  match response with
  | some r => { s1 with m_response_reference_cache := s1.m_response_reference_cache ++ [r] }
  | none => s1

/-- The method `ClientPSMoveAPIImpl::enqueue_event_message`. -/
def enqueue_event_message (s : ClientPSMoveAPIImpl)
    (event_type : eClientPSMoveAPIEvent) (event : ResponsePtr) : ClientPSMoveAPIImpl :=
  let message := Message.event event_type (ResponsePtr.handle event)
  -- Add the message to the message queue
  let s1 := { s with m_message_queue := s.m_message_queue ++ [message] }
  -- Maintain a reference to the event until the next update
  match event with
  | some r => { s1 with m_event_reference_cache := s1.m_event_reference_cache ++ [r] }
  | none => s1

/-- The method `ClientPSMoveAPIImpl::handle_notification`. -/
def handle_notification (s : ClientPSMoveAPIImpl) (notification : ResponsePtr) :
    Except Fault ClientPSMoveAPIImpl :=
  match notification with
  | none => .error .invalid_pointer
  | some n =>
    if n.request_id ≠ -1 then .error .assertion_failed
    else
      let specificEventType : eClientPSMoveAPIEvent :=
        match n.type with
        | .CONTROLLER_LIST_UPDATED => .controllerListUpdated
        | .TRACKER_LIST_UPDATED => .trackerListUpdated
        | .HMD_LIST_UPDATED => .hmdListUpdated
        | .other _ => .opaqueServiceEvent
      .ok (enqueue_event_message s specificEventType notification)

/-- The method `ClientPSMoveAPIImpl::handle_server_connection_opened`. -/
def handle_server_connection_opened (s : ClientPSMoveAPIImpl) : ClientPSMoveAPIImpl :=
  enqueue_event_message s .connectedToService none

/-- The method `ClientPSMoveAPIImpl::handle_server_connection_open_failed`. -/
def handle_server_connection_open_failed (s : ClientPSMoveAPIImpl) (_ec : Int) :
    ClientPSMoveAPIImpl :=
  enqueue_event_message s .failedToConnectToService none

/-- The method `ClientPSMoveAPIImpl::handle_server_connection_closed`. -/
def handle_server_connection_closed (s : ClientPSMoveAPIImpl) : ClientPSMoveAPIImpl :=
  enqueue_event_message s .disconnectedFromService none

/-- The method `ClientPSMoveAPIImpl::handle_server_connection_close_failed`: only logs. -/
def handle_server_connection_close_failed (s : ClientPSMoveAPIImpl) (_ec : Int) :
    ClientPSMoveAPIImpl := s

/-- The method `ClientPSMoveAPIImpl::handle_server_connection_socket_error`: only logs. -/
def handle_server_connection_socket_error (s : ClientPSMoveAPIImpl) (_ec : Int) :
    ClientPSMoveAPIImpl := s

/-- The method `ClientPSMoveAPIImpl::poll_next_message`.  `message` is the caller's buffer (`none`
for `nullptr`, otherwise its current content), `sizeof_Message` is
`sizeof(ClientPSMoveAPI::Message)`.  Returns the result flag, the buffer and the new
state. -/
def poll_next_message (sizeof_Message : Nat) (s : ClientPSMoveAPIImpl)
    (message : Option Message) (message_size : Nat) :
    Except Fault (Bool × Option Message × ClientPSMoveAPIImpl) :=
  match s.m_message_queue with
  | [] => .ok (false, message, s)
  | first :: rest =>
    if sizeof_Message ≠ message_size then .error .assertion_failed
    else
      match message with
      | none => .error .assertion_failed
      | some _ => .ok (true, some first, { s with m_message_queue := rest })

/-- The method `ClientPSMoveAPIImpl::startup`: initialises logging and asks the
network manager to connect; `connects` is the outcome of that attempt. -/
def startup (s : ClientPSMoveAPIImpl) (_log_level : Nat) (connects : Bool) :
    Bool × ClientPSMoveAPIImpl :=
  -- Attempt to connect to the server
  let attempt := s.m_network_manager.startup connects
  let success : Bool := if !attempt.1 then false else true
  (success, { s with m_network_manager := attempt.2 })

/-- The tail shared by the command methods: `m_request_manager.send_request(request)`
followed by `return request->request_id()`. -/
def send_and_return_id (s : ClientPSMoveAPIImpl) (request : Request) :
    t_request_id × ClientPSMoveAPIImpl :=
  let sent := s.m_request_manager.send_request request
  (sent.1.request_id, { s with m_request_manager := sent.2 })

/-- The method `ClientPSMoveAPIImpl::start_controller_data_stream`;
`includeRawSensorData` is the flag bit `ClientPSMoveAPI::includeRawSensorData` of the
missing header. -/
def start_controller_data_stream (includeRawSensorData : Nat) (s : ClientPSMoveAPIImpl)
    (view : Nat) (flags : Nat) : Except Fault (t_request_id × ClientPSMoveAPIImpl) :=
  -- view->GetControllerID()
  match s.heap.read view with
  | none => .error .invalid_pointer
  | some v =>
    let request : Request :=
      { Request.create .START_CONTROLLER_DATA_STREAM with
        request_start_psmove_data_stream := some
          { controller_id := v.ControllerID
            include_raw_sensor_data := decide ((flags &&& includeRawSensorData) > 0) } }
    .ok (send_and_return_id s request)

/-- The method `ClientPSMoveAPIImpl::stop_controller_data_stream`. -/
def stop_controller_data_stream (s : ClientPSMoveAPIImpl) (view : Nat) :
    Except Fault (t_request_id × ClientPSMoveAPIImpl) :=
  match s.heap.read view with
  | none => .error .invalid_pointer
  | some v =>
    let request : Request :=
      { Request.create .STOP_CONTROLLER_DATA_STREAM with
        request_stop_psmove_data_stream_controller_id := some v.ControllerID }
    .ok (send_and_return_id s request)

/-- The method `ClientPSMoveAPIImpl::set_controller_rumble`.  Floating point is not
modelled: `rumble` stands for the value of `static_cast<int>(rumble_amount * 255.f)`. -/
def set_controller_rumble (s : ClientPSMoveAPIImpl) (view : Nat) (rumble : Int) :
    Except Fault (t_request_id × ClientPSMoveAPIImpl) :=
  match s.heap.read view with
  | none => .error .invalid_pointer
  | some v =>
    -- assert(m_controller_view_map.find(view->GetControllerID()) != end())
    match map_find s.m_controller_view_map v.ControllerID with
    | none => .error .assertion_failed
    | some _ =>
      let request : Request :=
        { Request.create .SET_RUMBLE with
          request_rumble := some { controller_id := v.ControllerID, rumble := rumble } }
      .ok (send_and_return_id s request)

/-- The method `ClientPSMoveAPIImpl::set_led_color`, with the parameter types of the
source: `unsigned char r, unsigned char g, unsigned b`. -/
def set_led_color (s : ClientPSMoveAPIImpl) (view : Nat) (r g : Fin 256)
    (b : Fin 4294967296) : Except Fault (t_request_id × ClientPSMoveAPIImpl) :=
  match s.heap.read view with
  | none => .error .invalid_pointer
  | some v =>
    -- assert(m_controller_view_map.find(view->GetControllerID()) != end())
    match map_find s.m_controller_view_map v.ControllerID with
    | none => .error .assertion_failed
    | some _ =>
      let request : Request :=
        { Request.create .SET_LED_COLOR with
          set_led_color_request := some
            { controller_id := v.ControllerID
              r := static_cast_int_of_uchar r
              g := static_cast_int_of_uchar g
              b := static_cast_int_of_unsigned b } }
      .ok (send_and_return_id s request)

/-- The method `ClientPSMoveAPIImpl::reset_pose`. -/
def reset_pose (s : ClientPSMoveAPIImpl) (view : Nat) :
    Except Fault (t_request_id × ClientPSMoveAPIImpl) :=
  match s.heap.read view with
  | none => .error .invalid_pointer
  | some v =>
    let request : Request :=
      { Request.create .RESET_POSE with reset_pose_controller_id := some v.ControllerID }
    .ok (send_and_return_id s request)

/-- The method `ClientPSMoveAPIImpl::send_opaque_request`; `request_handle` points to
the caller's pre-built request (`none` for a null handle). -/
def send_opaque_request (s : ClientPSMoveAPIImpl) (request_handle : Option Request) :
    Except Fault (t_request_id × ClientPSMoveAPIImpl) :=
  match request_handle with
  | none => .error .invalid_pointer
  | some request => .ok (send_and_return_id s request)

/-! ## The update cycle -/

/-- One callback the transport (or, for `response`, the request manager) invokes on
the pipeline. -/
inductive Arrival where
  | data_frame (data_frame : ControllerDataFrame)
  | notification (notification : ResponsePtr)
  | response (result_code : eClientPSMoveResultCode) (request_id : t_request_id)
      (response : ResponsePtr)
  | connection_opened
  | connection_open_failed (ec : Int)
  | connection_closed
  | connection_close_failed (ec : Int)
  | connection_socket_error (ec : Int)
deriving DecidableEq, Repr

/-- The listener method each arrival invokes. -/
def deliver (s : ClientPSMoveAPIImpl) : Arrival → Except Fault ClientPSMoveAPIImpl
  | .data_frame f => handle_data_frame s f
  | .notification n => handle_notification s n
  | .response code id r => .ok (enqueue_response_message s code id r)
  | .connection_opened => .ok (handle_server_connection_opened s)
  | .connection_open_failed ec => .ok (handle_server_connection_open_failed s ec)
  | .connection_closed => .ok (handle_server_connection_closed s)
  | .connection_close_failed ec => .ok (handle_server_connection_close_failed s ec)
  | .connection_socket_error ec => .ok (handle_server_connection_socket_error s ec)

/-- Modelled from the spec: `ClientNetworkManager::update` of the missing
`ClientNetworkManager.h` drives one round of transport I/O, which synchronously
invokes the callbacks `arrivals` in order. -/
def network_manager_update (s : ClientPSMoveAPIImpl) :
    List Arrival → Except Fault ClientPSMoveAPIImpl
  | [] => .ok s
  | a :: rest =>
    match deliver s a with
    | .ok s1 => network_manager_update s1 rest
    | .error e => .error e

/-- The three `clear()` calls shared by `update` and `shutdown`: drop the unread
messages and all of the message parameters. -/
def clear_messages (s : ClientPSMoveAPIImpl) : ClientPSMoveAPIImpl :=
  { s with
    m_message_queue := []
    m_response_reference_cache := []
    m_event_reference_cache := [] }

/-- The method `ClientPSMoveAPIImpl::update`; `arrivals` are the callbacks of this transport
round. -/
def update (s : ClientPSMoveAPIImpl) (arrivals : List Arrival) :
    Except Fault ClientPSMoveAPIImpl :=
  -- Drop unread messages and message parameters, then process the networking requests
  network_manager_update (clear_messages s) arrivals

/-- The method `ClientPSMoveAPIImpl::shutdown`.  Modelled from the spec:
`ClientNetworkManager::shutdown` of the missing `ClientNetworkManager.h` tears down
the connection and touches nothing else of the pipeline. -/
def shutdown (s : ClientPSMoveAPIImpl) : ClientPSMoveAPIImpl :=
  clear_messages s

/-- The outcome of `n` consecutive calls of `poll_next_message` on the same buffer, which holds
`buffer` before the first call: the message each call produced (`none` for a call
that returned false) and the final state. -/
def poll_repeatedly (sizeof_Message : Nat) :
    Nat → ClientPSMoveAPIImpl → Message → Except Fault (List (Option Message) × ClientPSMoveAPIImpl)
  | 0, s, _ => .ok ([], s)
  | n + 1, s, buffer =>
    match poll_next_message sizeof_Message s (some buffer) sizeof_Message with
    | .error e => .error e
    | .ok (has_message, out, s1) =>
      match poll_repeatedly sizeof_Message n s1 (out.getD buffer) with
      | .error e => .error e
      | .ok (later, s2) => .ok ((if has_message then out else none) :: later, s2)

/-! ## Operations on a running pipeline -/

/-- A command issued on a constructed pipeline, with its arguments. -/
inductive Command where
  | start_controller_data_stream (view : Nat) (flags : Nat)
  | stop_controller_data_stream (view : Nat)
  | set_controller_rumble (view : Nat) (rumble : Int)
  | set_led_color (view : Nat) (r g : Fin 256) (b : Fin 4294967296)
  | reset_pose (view : Nat)
  | send_opaque_request (request_handle : Option Request)
deriving DecidableEq, Repr

/-- The command method a command invokes; it returns the request id and the new
state. -/
def run_command (includeRawSensorData : Nat) (s : ClientPSMoveAPIImpl) :
    Command → Except Fault (t_request_id × ClientPSMoveAPIImpl)
  | .start_controller_data_stream view flags =>
    start_controller_data_stream includeRawSensorData s view flags
  | .stop_controller_data_stream view => stop_controller_data_stream s view
  | .set_controller_rumble view rumble => set_controller_rumble s view rumble
  | .set_led_color view r g b => set_led_color s view r g b
  | .reset_pose view => reset_pose s view
  | .send_opaque_request request_handle => send_opaque_request s request_handle

/-- An operation performed on a constructed pipeline.  A command comes with the
value of the flag bit `includeRawSensorData` it was compiled against. -/
inductive Call where
  | update (arrivals : List Arrival)
  | poll_next_message (message : Option Message) (message_size : Nat)
  | allocate_controller_view (ControllerID : Int)
  | free_controller_view (view : Nat)
  | callback (a : Arrival)
  | command (includeRawSensorData : Nat) (c : Command)
deriving DecidableEq, Repr

/-- The state after one operation, or the fault that aborted it. -/
def step (sizeof_Message : Nat) (s : ClientPSMoveAPIImpl) :
    Call → Except Fault ClientPSMoveAPIImpl
  | .update arrivals => update s arrivals
  | .poll_next_message message message_size =>
    match poll_next_message sizeof_Message s message message_size with
    | .ok r => .ok r.2.2
    | .error e => .error e
  | .allocate_controller_view ControllerID =>
    match allocate_controller_view s ControllerID with
    | .ok r => .ok r.2
    | .error e => .error e
  | .free_controller_view view => free_controller_view s view
  | .callback a => deliver s a
  | .command includeRawSensorData c =>
    match run_command includeRawSensorData s c with
    | .ok r => .ok r.2
    | .error e => .error e

/-- The states a pipeline can be in: the freshly constructed one, and every state
an operation returns from a reachable state. -/
inductive Reachable (sizeof_Message : Nat) : ClientPSMoveAPIImpl → Prop where
  | create (host port : String) : Reachable sizeof_Message (ClientPSMoveAPIImpl.create host port)
  | step {s s1 : ClientPSMoveAPIImpl} (c : Call) :
      Reachable sizeof_Message s → step sizeof_Message s c = .ok s1 →
      Reachable sizeof_Message s1

/-! ## Registry observations -/

/-- Whether the registry has an entry for `ControllerID`. -/
def is_registered (s : ClientPSMoveAPIImpl) (ControllerID : Int) : Bool :=
  (map_find s.m_controller_view_map ControllerID).isSome

/-- The listener count of the view registered for `ControllerID`. -/
def listener_count (s : ClientPSMoveAPIImpl) (ControllerID : Int) : Option Int :=
  match map_find s.m_controller_view_map ControllerID with
  | some view => (s.heap.read view).map ClientControllerView.ListenerCount
  | none => none

/-- The view object registered for `ControllerID`. -/
def registered_view (s : ClientPSMoveAPIImpl) (ControllerID : Int) :
    Option ClientControllerView :=
  match map_find s.m_controller_view_map ControllerID with
  | some view => s.heap.read view
  | none => none

/-- Whether the handle `view` points to a live view whose device id has a registry
entry. -/
def view_device_registered (s : ClientPSMoveAPIImpl) (view : Nat) : Bool :=
  match s.heap.read view with
  | some v => is_registered s v.ControllerID
  | none => false

/-! ## Allocate / free sequences by device id -/

/-- A registry call named by device id; `free` stands for `free_controller_view` on
the handle currently registered for that id (the one `allocate_controller_view`
returned). -/
inductive RegistryCall where
  | allocate (ControllerID : Int)
  | free (ControllerID : Int)
deriving DecidableEq, Repr

/-- Perform one registry call. -/
def registry_call (s : ClientPSMoveAPIImpl) : RegistryCall → Except Fault ClientPSMoveAPIImpl
  | .allocate ControllerID =>
    match allocate_controller_view s ControllerID with
    | .ok r => .ok r.2
    | .error e => .error e
  | .free ControllerID =>
    match map_find s.m_controller_view_map ControllerID with
    | some view => free_controller_view s view
    | none => .error .invalid_pointer

/-- Perform a sequence of registry calls. -/
def registry_calls (s : ClientPSMoveAPIImpl) :
    List RegistryCall → Except Fault ClientPSMoveAPIImpl
  | [] => .ok s
  | c :: rest =>
    match registry_call s c with
    | .ok s1 => registry_calls s1 rest
    | .error e => .error e

/-- Every `free` in the sequence is applied to an id that is registered at that
moment. -/
def frees_registered : ClientPSMoveAPIImpl → List RegistryCall → Bool
  | _, [] => true
  | s, c :: rest =>
    (match c with
      | .free ControllerID => is_registered s ControllerID
      | .allocate _ => true) &&
    (match registry_call s c with
      | .ok s1 => frees_registered s1 rest
      | .error _ => true)

/-- Number of allocates minus number of frees of `ControllerID` in the sequence. -/
def net_count (ControllerID : Int) : List RegistryCall → Int
  | [] => 0
  | .allocate d :: rest => (if d = ControllerID then 1 else 0) + net_count ControllerID rest
  | .free d :: rest => (if d = ControllerID then -1 else 0) + net_count ControllerID rest

/-! ## What the specification expects of an arrival -/

/-- The event kind the specification assigns to a notification type. -/
def spec_event_kind : Response_ResponseType → eClientPSMoveAPIEvent
  | .CONTROLLER_LIST_UPDATED => .controllerListUpdated
  | .TRACKER_LIST_UPDATED => .trackerListUpdated
  | .HMD_LIST_UPDATED => .hmdListUpdated
  | .other _ => .opaqueServiceEvent

/-- The message the specification says an arrival puts on the queue: a Response
message for a resolved response, an Event message for a notification and for the
opened / open-failed / closed connection events, nothing for a data frame, a
close-failed or a socket-error callback. -/
def spec_message : Arrival → Option Message
  | .data_frame _ => none
  | .notification (some n) => some (.event (spec_event_kind n.type) (some n.addr))
  | .notification none => none
  | .response code id r => some (.response id code (r.map Response.addr))
  | .connection_opened => some (.event .connectedToService none)
  | .connection_open_failed _ => some (.event .failedToConnectToService none)
  | .connection_closed => some (.event .disconnectedFromService none)
  | .connection_close_failed _ => none
  | .connection_socket_error _ => none

/-- The payload the specification says an arrival leaves in the response cache. -/
def spec_response_payload : Arrival → List Response
  | .response _ _ (some r) => [r]
  | _ => []

/-- The payload the specification says an arrival leaves in the event cache. -/
def spec_event_payload : Arrival → List Response
  | .notification (some n) => [n]
  | _ => []

/-- An arrival the transport can deliver: a notification is a non-null response
object whose request id is -1 (what `handle_notification` asserts). -/
def well_formed_arrival : Arrival → Bool
  | .notification (some n) => decide (n.request_id = -1)
  | .notification none => false
  | _ => true

/-- The arrivals that are surfaced as messages: resolved responses, notifications
and the connection opened / open-failed / closed events. -/
def is_queued_arrival : Arrival → Bool
  | .notification _ => true
  | .response _ _ _ => true
  | .connection_opened => true
  | .connection_open_failed _ => true
  | .connection_closed => true
  | _ => false

/-- The queue the specification expects after a sequence of arrivals on an empty
queue: their messages in arrival order. -/
def spec_messages : List Arrival → List Message
  | [] => []
  | a :: rest => (spec_message a).toList ++ spec_messages rest

/-- The response cache the specification expects after a sequence of arrivals on an
empty cache. -/
def spec_response_cache : List Arrival → List Response
  | [] => []
  | a :: rest => spec_response_payload a ++ spec_response_cache rest

/-- The event cache the specification expects after a sequence of arrivals on an
empty cache. -/
def spec_event_cache : List Arrival → List Response
  | [] => []
  | a :: rest => spec_event_payload a ++ spec_event_cache rest

/-! ## One cycle, with its history -/

/-- Whether the payload a message points to is retained in the cache of its kind; a
message with a null handle points to nothing. -/
def payload_retained (s : ClientPSMoveAPIImpl) : Message → Prop
  | .response _ _ (some h) => ∃ r ∈ s.m_response_reference_cache, r.addr = h
  | .event _ (some h) => ∃ r ∈ s.m_event_reference_cache, r.addr = h
  | .response _ _ none => True
  | .event _ none => True

/-- A pipeline state together with the history of the current cycle: the messages
pushed on the queue since the last `update()` began (since construction, before the
first one), and those among them `poll_next_message` has already handed out. -/
structure Cycle where
  impl : ClientPSMoveAPIImpl
  enqueued : List Message
  polled : List Message

/-- A callback, recording the messages it pushed on the queue. -/
def Cycle.deliver (c : Cycle) (a : Arrival) : Except Fault Cycle :=
  match PSMove.deliver c.impl a with
  | .ok s1 =>
    .ok { impl := s1
          enqueued := c.enqueued ++ s1.m_message_queue.drop c.impl.m_message_queue.length
          polled := c.polled }
  | .error e => .error e

/-- The callbacks of one transport round, recording the messages they pushed. -/
def Cycle.deliver_all (c : Cycle) : List Arrival → Except Fault Cycle
  | [] => .ok c
  | a :: rest =>
    match c.deliver a with
    | .ok c1 => c1.deliver_all rest
    | .error e => .error e

/-- One operation on a running pipeline, recording the history of the cycle. -/
def Cycle.step (sizeof_Message : Nat) (c : Cycle) : Call → Except Fault Cycle
  | .update arrivals =>
    Cycle.deliver_all { impl := clear_messages c.impl, enqueued := [], polled := [] } arrivals
  | .poll_next_message message message_size =>
    match poll_next_message sizeof_Message c.impl message message_size with
    | .ok r =>
      .ok { impl := r.2.2
            enqueued := c.enqueued
            polled := c.polled ++ (if r.1 then r.2.1.toList else []) }
    | .error e => .error e
  | .allocate_controller_view ControllerID =>
    match allocate_controller_view c.impl ControllerID with
    | .ok r => .ok { c with impl := r.2 }
    | .error e => .error e
  | .free_controller_view view =>
    match free_controller_view c.impl view with
    | .ok s1 => .ok { c with impl := s1 }
    | .error e => .error e
  | .callback a => c.deliver a
  | .command includeRawSensorData cmd =>
    match run_command includeRawSensorData c.impl cmd with
    | .ok r => .ok { c with impl := r.2 }
    | .error e => .error e

/-- The cycles a running pipeline can be in. -/
inductive Cycle.Reachable (sizeof_Message : Nat) : Cycle → Prop where
  | create (host port : String) :
      Cycle.Reachable sizeof_Message
        { impl := ClientPSMoveAPIImpl.create host port, enqueued := [], polled := [] }
  | step {c c1 : Cycle} (call : Call) :
      Cycle.Reachable sizeof_Message c → Cycle.step sizeof_Message c call = .ok c1 →
      Cycle.Reachable sizeof_Message c1

/-- The history of a cycle is consistent: what was polled followed by what is still
queued is what was enqueued, and every enqueued message points to a retained
payload. -/
def Cycle.Consistent (c : Cycle) : Prop :=
  c.polled ++ c.impl.m_message_queue = c.enqueued ∧
  ∀ m ∈ c.enqueued, payload_retained c.impl m

/-- The fields a command leaves alone. -/
def same_but_requests (s s1 : ClientPSMoveAPIImpl) : Prop :=
  s1.m_controller_view_map = s.m_controller_view_map ∧ s1.heap = s.heap ∧
  s1.m_message_queue = s.m_message_queue ∧
  s1.m_response_reference_cache = s.m_response_reference_cache ∧
  s1.m_event_reference_cache = s.m_event_reference_cache ∧
  s1.m_network_manager = s.m_network_manager

/-! ## The public interface `ClientPSMoveAPI` -/

/-- The static state of `ClientPSMoveAPI`: the pointer `m_implementation_ptr` to the
pipeline, `none` for `nullptr`. -/
structure ClientPSMoveAPI where
  m_implementation_ptr : Option ClientPSMoveAPIImpl
deriving DecidableEq, Repr

/-- The state at program start: `m_implementation_ptr = nullptr`. -/
def ClientPSMoveAPI.initial : ClientPSMoveAPI := { m_implementation_ptr := none }

/-- The function `ClientPSMoveAPI::startup`; `connects` is the outcome of the
connection attempt, should one be made. -/
def ClientPSMoveAPI.startup (api : ClientPSMoveAPI) (host port : String) (log_level : Nat)
    (connects : Bool) : Bool × ClientPSMoveAPI :=
  match api.m_implementation_ptr with
  | none =>
    let started := PSMove.startup (ClientPSMoveAPIImpl.create host port) log_level connects
    (started.1, { m_implementation_ptr := some started.2 })
  | some _ => (true, api)

/-- The function `ClientPSMoveAPI::has_started`. -/
def ClientPSMoveAPI.has_started (api : ClientPSMoveAPI) : Bool :=
  api.m_implementation_ptr.isSome

/-- The function `ClientPSMoveAPI::update`. -/
def ClientPSMoveAPI.update (api : ClientPSMoveAPI) (arrivals : List Arrival) :
    Except Fault ClientPSMoveAPI :=
  match api.m_implementation_ptr with
  | some s =>
    match PSMove.update s arrivals with
    | .ok s1 => .ok { m_implementation_ptr := some s1 }
    | .error e => .error e
  | none => .ok api

/-- The function `ClientPSMoveAPI::poll_next_message`. -/
def ClientPSMoveAPI.poll_next_message (sizeof_Message : Nat) (api : ClientPSMoveAPI)
    (message : Option Message) (message_size : Nat) :
    Except Fault (Bool × Option Message × ClientPSMoveAPI) :=
  match api.m_implementation_ptr with
  | some s =>
    match PSMove.poll_next_message sizeof_Message s message message_size with
    | .ok r => .ok (r.1, r.2.1, { m_implementation_ptr := some r.2.2 })
    | .error e => .error e
  | none => .ok (false, message, api)

/-- The statements `delete m_implementation_ptr; m_implementation_ptr = nullptr`. -/
def delete_implementation (_s : ClientPSMoveAPIImpl) : ClientPSMoveAPI :=
  { m_implementation_ptr := none }

/-- The function `ClientPSMoveAPI::shutdown`. -/
def ClientPSMoveAPI.shutdown (api : ClientPSMoveAPI) : ClientPSMoveAPI :=
  match api.m_implementation_ptr with
  | some s => delete_implementation (PSMove.shutdown s)
  | none => api

/-- The body shared by the six command functions of `ClientPSMoveAPI`: the result is
`INVALID_REQUEST_ID` unless a pipeline exists, in which case it is what the pipeline's
method returns.  `INVALID_REQUEST_ID` is the constant of the missing header. -/
def ClientPSMoveAPI.forward (INVALID_REQUEST_ID : t_request_id) (api : ClientPSMoveAPI)
    (method : ClientPSMoveAPIImpl → Except Fault (t_request_id × ClientPSMoveAPIImpl)) :
    Except Fault (t_request_id × ClientPSMoveAPI) :=
  match api.m_implementation_ptr with
  | some s =>
    match method s with
    | .ok r => .ok (r.1, { m_implementation_ptr := some r.2 })
    | .error e => .error e
  | none => .ok (INVALID_REQUEST_ID, api)

/-- The function `ClientPSMoveAPI::start_controller_data_stream`. -/
def ClientPSMoveAPI.start_controller_data_stream (INVALID_REQUEST_ID : t_request_id)
    (includeRawSensorData : Nat) (api : ClientPSMoveAPI) (view : Nat) (flags : Nat) :
    Except Fault (t_request_id × ClientPSMoveAPI) :=
  api.forward INVALID_REQUEST_ID
    (fun s => PSMove.start_controller_data_stream includeRawSensorData s view flags)

/-- The function `ClientPSMoveAPI::stop_controller_data_stream`. -/
def ClientPSMoveAPI.stop_controller_data_stream (INVALID_REQUEST_ID : t_request_id)
    (api : ClientPSMoveAPI) (view : Nat) : Except Fault (t_request_id × ClientPSMoveAPI) :=
  api.forward INVALID_REQUEST_ID (fun s => PSMove.stop_controller_data_stream s view)

/-- The function `ClientPSMoveAPI::set_controller_rumble`. -/
def ClientPSMoveAPI.set_controller_rumble (INVALID_REQUEST_ID : t_request_id)
    (api : ClientPSMoveAPI) (view : Nat) (rumble : Int) :
    Except Fault (t_request_id × ClientPSMoveAPI) :=
  api.forward INVALID_REQUEST_ID (fun s => PSMove.set_controller_rumble s view rumble)

/-- The function `ClientPSMoveAPI::set_led_color`, with the parameter types of the
source: `unsigned char r, unsigned char g, unsigned b`. -/
def ClientPSMoveAPI.set_led_color (INVALID_REQUEST_ID : t_request_id)
    (api : ClientPSMoveAPI) (view : Nat) (r g : Fin 256) (b : Fin 4294967296) :
    Except Fault (t_request_id × ClientPSMoveAPI) :=
  api.forward INVALID_REQUEST_ID (fun s => PSMove.set_led_color s view r g b)

/-- The function `ClientPSMoveAPI::reset_pose`. -/
def ClientPSMoveAPI.reset_pose (INVALID_REQUEST_ID : t_request_id)
    (api : ClientPSMoveAPI) (view : Nat) : Except Fault (t_request_id × ClientPSMoveAPI) :=
  api.forward INVALID_REQUEST_ID (fun s => PSMove.reset_pose s view)

/-- The function `ClientPSMoveAPI::send_opaque_request`. -/
def ClientPSMoveAPI.send_opaque_request (INVALID_REQUEST_ID : t_request_id)
    (api : ClientPSMoveAPI) (request_handle : Option Request) :
    Except Fault (t_request_id × ClientPSMoveAPI) :=
  api.forward INVALID_REQUEST_ID (fun s => PSMove.send_opaque_request s request_handle)

/-- The requests the pipeline has handed to the transport so far. -/
def sent_requests (s : ClientPSMoveAPIImpl) : List Request := s.m_request_manager.sent

/-! ## Sample states -/

/-- The freshly constructed pipeline used in the worked examples. -/
def fresh_pipeline : ClientPSMoveAPIImpl := ClientPSMoveAPIImpl.create "localhost" "9512"

/-- The pipeline after `allocate_controller_view(7)` on `fresh_pipeline`. -/
def pipeline_with_view7 : ClientPSMoveAPIImpl :=
  { fresh_pipeline with
    m_controller_view_map := [(7, 0)]
    heap := { objs := [(0, { ControllerID := 7, ListenerCount := 1, state := none })], next := 1 } }

/-- The pipeline after the connection-opened callback on `fresh_pipeline`: one unread
event on the queue. -/
def pipeline_with_unread_event : ClientPSMoveAPIImpl :=
  handle_server_connection_opened fresh_pipeline

/-- A response object with a payload, as the request manager resolves it. -/
def sample_response : Response := { addr := 100, request_id := 1, type := .other 0 }

/-- A tracker-list notification object. -/
def sample_notification : Response :=
  { addr := 101, request_id := -1, type := .TRACKER_LIST_UPDATED }

/-- The cycle after `update()` delivered `sample_response` as a resolved response on
`fresh_pipeline`. -/
def cycle_after_update : Cycle :=
  { impl := { fresh_pipeline with
      m_message_queue := [Message.response 1 0 (some 100)]
      m_response_reference_cache := [sample_response] }
    enqueued := [Message.response 1 0 (some 100)]
    polled := [] }

/-- The cycle after one `poll_next_message` on `cycle_after_update`. -/
def cycle_after_poll : Cycle :=
  { impl := { fresh_pipeline with
      m_message_queue := []
      m_response_reference_cache := [sample_response] }
    enqueued := [Message.response 1 0 (some 100)]
    polled := [Message.response 1 0 (some 100)] }

/-- A pipeline that holds a live view for device 7 which the registry does not track:
the caller constructed the view itself instead of calling
`allocate_controller_view`. -/
def pipeline_with_untracked_view : ClientPSMoveAPIImpl :=
  { fresh_pipeline with
    heap := { objs := [(0, ClientControllerView.create 7)], next := 1 } }

/-- The `SET_LED_COLOR` request `set_led_color(view7, 10, 20, 256)` builds on
`pipeline_with_view7`, as stamped by the request manager. -/
def led_request_blue_256 : Request :=
  { Request.create .SET_LED_COLOR with
    request_id := 1
    set_led_color_request := some { controller_id := 7, r := 10, g := 20, b := 256 } }

/-- The `START_CONTROLLER_DATA_STREAM` request for device 7 with default flags, as
stamped by the request manager of a fresh pipeline. -/
def start_request_device7 : Request :=
  { Request.create .START_CONTROLLER_DATA_STREAM with
    request_id := 1
    request_start_psmove_data_stream := some
      { controller_id := 7, include_raw_sensor_data := false } }

/-! ## Well-formed registries -/

/-- The registry and the free store agree: keys are unique, every entry points to a
live view carrying the entry's id and at least one listener, every live view is the
one registered for its id, and addresses not yet handed out hold nothing. -/
structure RegistryWF (m : List (Int × Nat)) (h : ViewHeap) : Prop where
  keys_nodup : (map_keys m).Nodup
  entry_live : ∀ d p, map_find m d = some p →
    ∃ v, h.read p = some v ∧ v.ControllerID = d ∧ 1 ≤ v.ListenerCount
  no_leak : ∀ p v, h.read p = some v → map_find m v.ControllerID = some p
  fresh : ∀ p, h.next ≤ p → h.read p = none

/-- Well-formedness of the registry of a pipeline state. -/
def WellFormed (s : ClientPSMoveAPIImpl) : Prop :=
  RegistryWF s.m_controller_view_map s.heap

/-! ## Lemmas: containers -/

theorem map_find_isSome_iff_mem_keys {α : Type} (m : List (Int × α)) (k : Int) :
    (map_find m k).isSome = true ↔ k ∈ map_keys m := by
  induction m with
  | nil => simp [map_find, map_keys]
  | cons e rest ih =>
    obtain ⟨k', v⟩ := e
    by_cases h : k' = k
    · simp [map_find, map_keys, h]
    · have h' : ¬ k = k' := fun e => h e.symm
      simp only [map_find, h, if_false, ih]
      simp [map_keys, h']

theorem map_find_eq_none_iff {α : Type} (m : List (Int × α)) (k : Int) :
    map_find m k = none ↔ k ∉ map_keys m := by
  rw [← map_find_isSome_iff_mem_keys]
  cases map_find m k <;> simp

theorem map_find_insert {α : Type} (m : List (Int × α)) (k : Int) (v : α)
    (hk : map_find m k = none) (k' : Int) :
    map_find (map_insert m k v) k' = if k' = k then some v else map_find m k' := by
  induction m with
  | nil =>
    by_cases h : k = k'
    · simp [map_insert, map_find, h]
    · have h' : ¬ k' = k := fun e => h e.symm
      simp [map_insert, map_find, h, h']
  | cons e rest ih =>
    obtain ⟨k0, v0⟩ := e
    have hne : ¬ k0 = k := by
      intro e
      simp [map_find, e] at hk
    have hne' : ¬ k = k0 := fun e => hne e.symm
    have hrest : map_find rest k = none := by
      simpa [map_find, hne] using hk
    simp only [map_insert, hne', if_false]
    by_cases hlt : k < k0
    · simp only [hlt, if_true, map_find]
      by_cases h : k = k'
      · simp [h]
      · have h' : ¬ k' = k := fun e => h e.symm
        simp [h, h']
    · simp only [hlt, if_false, map_find, ih hrest]
      by_cases h0 : k0 = k'
      · have : ¬ k' = k := by
          intro e
          exact hne (h0.trans e)
        simp [h0, this]
      · simp [h0]

theorem map_keys_insert_mem {α : Type} (m : List (Int × α)) (k : Int) (v : α) (k' : Int) :
    k' ∈ map_keys (map_insert m k v) ↔ k' = k ∨ k' ∈ map_keys m := by
  induction m with
  | nil => simp [map_insert, map_keys]
  | cons e rest ih =>
    obtain ⟨k0, v0⟩ := e
    by_cases h : k = k0
    · subst h
      simp [map_insert, map_keys]
    · by_cases hlt : k < k0
      · simp [map_insert, map_keys, h, hlt]
      · have ih' : k' ∈ List.map Prod.fst (map_insert rest k v) ↔
            k' = k ∨ k' ∈ List.map Prod.fst rest := ih
        simp only [map_insert, h, hlt, if_false, map_keys, List.map_cons, List.mem_cons, ih']
        tauto

theorem map_keys_insert_nodup {α : Type} (m : List (Int × α)) (k : Int) (v : α)
    (hk : k ∉ map_keys m) (hn : (map_keys m).Nodup) :
    (map_keys (map_insert m k v)).Nodup := by
  induction m with
  | nil => simp [map_insert, map_keys]
  | cons e rest ih =>
    obtain ⟨k0, v0⟩ := e
    have hk0 : ¬ k = k0 := by
      intro e
      apply hk
      simp [map_keys, e]
    have hkr : k ∉ map_keys rest := by
      intro hmem
      apply hk
      simp only [map_keys, List.map_cons, List.mem_cons]
      exact Or.inr hmem
    have hn' : k0 ∉ map_keys rest ∧ (map_keys rest).Nodup := by
      simpa [map_keys] using hn
    by_cases hlt : k < k0
    · simp only [map_insert, hk0, hlt, if_false, if_true, map_keys, List.map_cons]
      refine List.nodup_cons.mpr ⟨?_, ?_⟩
      · simpa [map_keys] using hk
      · simpa [map_keys] using hn
    · simp only [map_insert, hk0, hlt, if_false, map_keys, List.map_cons]
      refine List.nodup_cons.mpr ⟨?_, ih hkr hn'.2⟩
      intro hmem
      have : k0 = k ∨ k0 ∈ map_keys rest := (map_keys_insert_mem rest k v k0).mp hmem
      rcases this with h | h
      · exact hk0 h.symm
      · exact hn'.1 h

theorem map_keys_erase_sublist {α : Type} (m : List (Int × α)) (k : Int) :
    (map_keys (map_erase m k)).Sublist (map_keys m) := by
  induction m with
  | nil => simp [map_erase, map_keys]
  | cons e rest ih =>
    obtain ⟨k0, v0⟩ := e
    by_cases h : k0 = k
    · simp [map_erase, map_keys, h]
    · simp only [map_erase, h, if_false, map_keys, List.map_cons]
      exact List.Sublist.cons₂ _ ih

theorem map_find_erase {α : Type} (m : List (Int × α)) (k : Int)
    (hn : (map_keys m).Nodup) (k' : Int) :
    map_find (map_erase m k) k' = if k' = k then none else map_find m k' := by
  induction m with
  | nil => simp [map_erase, map_find]
  | cons e rest ih =>
    obtain ⟨k0, v0⟩ := e
    have hn' : k0 ∉ map_keys rest ∧ (map_keys rest).Nodup := by
      simpa [map_keys] using hn
    by_cases h : k0 = k
    · subst h
      simp only [map_erase, if_true, map_find]
      by_cases h' : k' = k0
      · subst h'
        simp only [if_true]
        exact (map_find_eq_none_iff rest k').mpr hn'.1
      · have : ¬ k0 = k' := fun e => h' e.symm
        simp [h', this]
    · simp only [map_erase, h, if_false, map_find, ih hn'.2]
      by_cases h0 : k0 = k'
      · have : ¬ k' = k := by
          intro e
          exact h (h0.trans e)
        simp [h0, this]
      · simp [h0]

theorem heap_lookup_store (objs : List (Nat × ClientControllerView)) (p : Nat)
    (v : ClientControllerView) (q : Nat) :
    heap_lookup (heap_store objs p v) q =
      if q = p then (heap_lookup objs p).map (fun _ => v) else heap_lookup objs q := by
  induction objs with
  | nil => simp [heap_lookup, heap_store]
  | cons e rest ih =>
    obtain ⟨a, w⟩ := e
    by_cases ha : a = p
    · subst ha
      by_cases hq : q = a
      · subst hq
        simp [heap_lookup, heap_store]
      · have : ¬ a = q := fun e => hq e.symm
        simp [heap_lookup, heap_store, this, hq]
    · by_cases hq : q = p
      · subst hq
        simp [heap_lookup, heap_store, ha, ih]
      · simp [heap_lookup, heap_store, ha, ih, hq]

theorem ViewHeap.read_write (h : ViewHeap) (p : Nat) (v : ClientControllerView) (q : Nat) :
    (h.write p v).read q = if q = p then (h.read p).map (fun _ => v) else h.read q := by
  simp only [ViewHeap.read, ViewHeap.write]
  exact heap_lookup_store h.objs p v q

theorem heap_lookup_remove (objs : List (Nat × ClientControllerView)) (p q : Nat) :
    heap_lookup (heap_remove objs p) q =
      if q = p then none else heap_lookup objs q := by
  induction objs with
  | nil => simp [heap_lookup, heap_remove]
  | cons e rest ih =>
    obtain ⟨a, w⟩ := e
    by_cases ha : a = p
    · subst ha
      by_cases hq : q = a
      · subst hq
        simpa [heap_remove, heap_lookup] using ih
      · have : ¬ a = q := fun e => hq e.symm
        simpa [heap_remove, heap_lookup, this, hq] using ih
    · by_cases hq : q = p
      · subst hq
        simpa [heap_remove, heap_lookup, ha] using ih
      · by_cases haq : a = q
        · simp [heap_remove, heap_lookup, ha, haq, hq]
        · simpa [heap_remove, heap_lookup, ha, haq, hq] using ih

theorem ViewHeap.read_delete (h : ViewHeap) (p q : Nat) :
    (h.delete p).read q = if q = p then none else h.read q := by
  simp only [ViewHeap.read, ViewHeap.delete]
  exact heap_lookup_remove h.objs p q

theorem ViewHeap.read_alloc (h : ViewHeap) (v : ClientControllerView) (q : Nat) :
    (h.alloc v).2.read q = if q = h.next then some v else h.read q := by
  by_cases hq : q = h.next
  · simp [ViewHeap.read, ViewHeap.alloc, heap_lookup, hq]
  · have : ¬ h.next = q := fun e => hq e.symm
    simp [ViewHeap.read, ViewHeap.alloc, heap_lookup, hq, this]

/-! ## Lemmas: well-formedness is preserved -/

theorem ViewHeap.write_next (h : ViewHeap) (p : Nat) (v : ClientControllerView) :
    (h.write p v).next = h.next := rfl

theorem ViewHeap.delete_next (h : ViewHeap) (p : Nat) : (h.delete p).next = h.next := rfl

theorem RegistryWF.empty : RegistryWF [] { objs := [], next := 0 } := by
  refine ⟨?_, ?_, ?_, ?_⟩
  · simp [map_keys]
  · intro d p hp
    simp [map_find] at hp
  · intro p v hp
    simp [ViewHeap.read, heap_lookup] at hp
  · intro p _
    simp [ViewHeap.read, heap_lookup]

theorem RegistryWF.live_lt {m : List (Int × Nat)} {h : ViewHeap} (wf : RegistryWF m h)
    {p : Nat} {v : ClientControllerView} (hp : h.read p = some v) : p < h.next := by
  by_contra hlt
  have := wf.fresh p (Nat.le_of_not_lt hlt)
  rw [this] at hp
  cases hp

theorem RegistryWF.write {m : List (Int × Nat)} {h : ViewHeap} (wf : RegistryWF m h)
    {p : Nat} {v v1 : ClientControllerView} (hp : h.read p = some v)
    (hid : v1.ControllerID = v.ControllerID) (hc : 1 ≤ v1.ListenerCount) :
    RegistryWF m (h.write p v1) := by
  refine ⟨wf.keys_nodup, ?_, ?_, ?_⟩
  · intro d q hq
    obtain ⟨w, hw, hwd, hwc⟩ := wf.entry_live d q hq
    by_cases hqp : q = p
    · subst hqp
      rw [hp] at hw
      cases hw
      exact ⟨v1, by simp [ViewHeap.read_write, hp], by rw [hid, hwd], hc⟩
    · exact ⟨w, by simp [ViewHeap.read_write, hqp, hw], hwd, hwc⟩
  · intro q w hq
    by_cases hqp : q = p
    · subst hqp
      simp [ViewHeap.read_write, hp] at hq
      subst hq
      rw [hid]
      exact wf.no_leak q v hp
    · simp only [ViewHeap.read_write, hqp, if_false] at hq
      exact wf.no_leak q w hq
  · intro q hq
    rw [ViewHeap.write_next] at hq
    have hqp : q ≠ p := by
      intro e
      subst e
      have := wf.fresh q hq
      rw [this] at hp
      cases hp
    simp only [ViewHeap.read_write, hqp, if_false]
    exact wf.fresh q hq

/-- The free store after `new ClientControllerView(d)` followed by `IncListenerCount`. -/
theorem ViewHeap.read_alloc_write (h : ViewHeap) (v v1 : ClientControllerView) (q : Nat) :
    ((h.alloc v).2.write h.next v1).read q = if q = h.next then some v1 else h.read q := by
  by_cases hq : q = h.next
  · simp [ViewHeap.read_write, ViewHeap.read_alloc, hq]
  · simp [ViewHeap.read_write, ViewHeap.read_alloc, hq]

theorem RegistryWF.insert {m : List (Int × Nat)} {h : ViewHeap} (wf : RegistryWF m h)
    {d : Int} (hd : map_find m d = none) {v v1 : ClientControllerView}
    (hid : v1.ControllerID = d) (hc : 1 ≤ v1.ListenerCount) :
    RegistryWF (map_insert m d h.next) ((h.alloc v).2.write h.next v1) := by
  refine ⟨?_, ?_, ?_, ?_⟩
  · exact map_keys_insert_nodup m d h.next ((map_find_eq_none_iff m d).mp hd) wf.keys_nodup
  · intro d1 q hq
    rw [map_find_insert m d h.next hd] at hq
    by_cases hdd : d1 = d
    · subst hdd
      simp only [if_true, Option.some.injEq] at hq
      subst hq
      exact ⟨v1, by simp [ViewHeap.read_alloc_write], hid, hc⟩
    · simp only [hdd, if_false] at hq
      obtain ⟨w, hw, hwd, hwc⟩ := wf.entry_live d1 q hq
      have hlt := wf.live_lt hw
      have hne : q ≠ h.next := Nat.ne_of_lt hlt
      exact ⟨w, by simp [ViewHeap.read_alloc_write, hne, hw], hwd, hwc⟩
  · intro q w hq
    rw [ViewHeap.read_alloc_write] at hq
    by_cases hqn : q = h.next
    · subst hqn
      simp only [if_true, Option.some.injEq] at hq
      subst hq
      rw [map_find_insert m d h.next hd]
      simp [hid]
    · simp only [hqn, if_false] at hq
      have hm := wf.no_leak q w hq
      have hwd : w.ControllerID ≠ d := by
        intro e
        rw [e, hd] at hm
        cases hm
      rw [map_find_insert m d h.next hd]
      simp [hwd, hm]
  · intro q hq
    have hq1 : h.next + 1 ≤ q := hq
    have hne : q ≠ h.next := by omega
    rw [ViewHeap.read_alloc_write]
    simp only [hne, if_false]
    exact wf.fresh q (by omega)

theorem RegistryWF.erase {m : List (Int × Nat)} {h : ViewHeap} (wf : RegistryWF m h)
    {d : Int} {p : Nat} (hd : map_find m d = some p) (v1 : ClientControllerView) :
    RegistryWF (map_erase m d) ((h.write p v1).delete p) := by
  obtain ⟨v0, hv0, hv0d, _⟩ := wf.entry_live d p hd
  have hread : ∀ q, ((h.write p v1).delete p).read q = if q = p then none else h.read q := by
    intro q
    by_cases hq : q = p
    · simp [ViewHeap.read_delete, hq]
    · simp [ViewHeap.read_delete, ViewHeap.read_write, hq]
  refine ⟨?_, ?_, ?_, ?_⟩
  · exact List.Nodup.sublist (map_keys_erase_sublist m d) wf.keys_nodup
  · intro d1 q hq
    rw [map_find_erase m d wf.keys_nodup] at hq
    by_cases hdd : d1 = d
    · simp [hdd] at hq
    · simp only [hdd, if_false] at hq
      obtain ⟨w, hw, hwd, hwc⟩ := wf.entry_live d1 q hq
      have hqp : q ≠ p := by
        intro e
        subst e
        rw [hv0] at hw
        cases hw
        exact hdd (hwd.symm.trans hv0d)
      exact ⟨w, by simp [hread, hqp, hw], hwd, hwc⟩
  · intro q w hq
    rw [hread] at hq
    by_cases hqp : q = p
    · simp [hqp] at hq
    · simp only [hqp, if_false] at hq
      have hm := wf.no_leak q w hq
      have hwd : w.ControllerID ≠ d := by
        intro e
        rw [e, hd] at hm
        cases hm
        exact hqp rfl
      rw [map_find_erase m d wf.keys_nodup]
      simp [hwd, hm]
  · intro q hq
    have hq1 : h.next ≤ q := hq
    rw [hread]
    by_cases hqp : q = p
    · simp [hqp]
    · simp only [hqp, if_false]
      exact wf.fresh q hq1

/-! ## Lemmas: what each registry operation returns -/

theorem allocate_registered (s : ClientPSMoveAPIImpl) (d : Int) (p : Nat)
    (v : ClientControllerView) (hm : map_find s.m_controller_view_map d = some p)
    (hp : s.heap.read p = some v) :
    allocate_controller_view s d =
      .ok (p, { s with heap := s.heap.write p v.IncListenerCount }) := by
  simp [allocate_controller_view, hm, hp]

theorem allocate_unregistered (s : ClientPSMoveAPIImpl) (d : Int)
    (hm : map_find s.m_controller_view_map d = none) :
    allocate_controller_view s d =
      .ok (s.heap.next, { s with
        heap := (s.heap.alloc (ClientControllerView.create d)).2.write s.heap.next
          (ClientControllerView.create d).IncListenerCount
        m_controller_view_map := map_insert s.m_controller_view_map d s.heap.next }) := by
  have h := ViewHeap.read_alloc s.heap (ClientControllerView.create d) s.heap.next
  simp only [if_true] at h
  have h1 : (s.heap.alloc (ClientControllerView.create d)).1 = s.heap.next := rfl
  simp only [allocate_controller_view, hm, h1, h]

theorem free_last (s : ClientPSMoveAPIImpl) (view : Nat) (v : ClientControllerView)
    (hv : s.heap.read view = some v)
    (hm : map_find s.m_controller_view_map v.ControllerID = some view)
    (hc : v.ListenerCount ≤ 1) :
    free_controller_view s view =
      .ok { s with
        heap := (s.heap.write view v.DecListenerCount).delete view
        m_controller_view_map := map_erase s.m_controller_view_map v.ControllerID } := by
  have hc1 : v.DecListenerCount.ListenerCount ≤ 0 := by
    simp only [ClientControllerView.DecListenerCount]
    omega
  simp [free_controller_view, hv, hm, hc1, ViewHeap.read_write]

theorem free_more (s : ClientPSMoveAPIImpl) (view : Nat) (v : ClientControllerView)
    (hv : s.heap.read view = some v) (entry : Nat)
    (hm : map_find s.m_controller_view_map v.ControllerID = some entry)
    (hc : 1 < v.ListenerCount) :
    free_controller_view s view =
      .ok { s with heap := s.heap.write view v.DecListenerCount } := by
  have hc1 : ¬ v.DecListenerCount.ListenerCount ≤ 0 := by
    simp only [ClientControllerView.DecListenerCount]
    omega
  simp [free_controller_view, hv, hm, hc1]

theorem WellFormed.create (host port : String) :
    WellFormed (ClientPSMoveAPIImpl.create host port) :=
  RegistryWF.empty

theorem WellFormed.allocate {s : ClientPSMoveAPIImpl} (wf : WellFormed s) (d : Int) :
    ∃ p s1, allocate_controller_view s d = .ok (p, s1) ∧ WellFormed s1 ∧
      map_find s1.m_controller_view_map d = some p := by
  cases hm : map_find s.m_controller_view_map d with
  | none =>
    refine ⟨_, _, allocate_unregistered s d hm, ?_, ?_⟩
    · exact RegistryWF.insert wf hm rfl (by simp [ClientControllerView.IncListenerCount,
        ClientControllerView.create])
    · simp [map_find_insert _ _ _ hm]
  | some p =>
    obtain ⟨v, hv, hvd, hvc⟩ := wf.entry_live d p hm
    refine ⟨_, _, allocate_registered s d p v hm hv, ?_, hm⟩
    exact RegistryWF.write wf hv rfl (by
      simp only [ClientControllerView.IncListenerCount]
      omega)

theorem WellFormed.free {s s1 : ClientPSMoveAPIImpl} (wf : WellFormed s) {view : Nat}
    (h : free_controller_view s view = .ok s1) : WellFormed s1 := by
  cases hv : s.heap.read view with
  | none => simp [free_controller_view, hv] at h
  | some v =>
    have hm := wf.no_leak view v hv
    by_cases hc : v.ListenerCount ≤ 1
    · rw [free_last s view v hv hm hc] at h
      cases h
      exact RegistryWF.erase wf hm _
    · have hc1 : 1 < v.ListenerCount := by omega
      rw [free_more s view v hv view hm hc1] at h
      cases h
      exact RegistryWF.write wf hv rfl (by
        simp only [ClientControllerView.DecListenerCount]
        omega)

theorem WellFormed.handle_data_frame {s : ClientPSMoveAPIImpl} (wf : WellFormed s)
    (f : ControllerDataFrame) :
    ∃ s1, handle_data_frame s f = .ok s1 ∧ WellFormed s1 ∧
      s1.m_controller_view_map = s.m_controller_view_map ∧
      s1.m_message_queue = s.m_message_queue ∧
      s1.m_response_reference_cache = s.m_response_reference_cache ∧
      s1.m_event_reference_cache = s.m_event_reference_cache := by
  cases hm : map_find s.m_controller_view_map f.controller_id with
  | none => exact ⟨s, by simp [PSMove.handle_data_frame, hm], wf, rfl, rfl, rfl, rfl⟩
  | some p =>
    obtain ⟨v, hv, hvd, hvc⟩ := wf.entry_live _ p hm
    refine ⟨{ s with heap := s.heap.write p (v.ApplyControllerDataFrame f) },
      by simp [PSMove.handle_data_frame, hm, hv], ?_, rfl, rfl, rfl, rfl⟩
    exact RegistryWF.write wf hv rfl hvc

/-! ## Lemmas: the enqueue operations -/

theorem enqueue_response_message_queue (s : ClientPSMoveAPIImpl)
    (code : eClientPSMoveResultCode) (id : t_request_id) (r : ResponsePtr) :
    (enqueue_response_message s code id r).m_message_queue =
      s.m_message_queue ++ [Message.response id code (ResponsePtr.handle r)] := by
  cases r <;> rfl

theorem enqueue_response_message_response_cache (s : ClientPSMoveAPIImpl)
    (code : eClientPSMoveResultCode) (id : t_request_id) (r : ResponsePtr) :
    (enqueue_response_message s code id r).m_response_reference_cache =
      s.m_response_reference_cache ++ r.toList := by
  cases r <;> simp [enqueue_response_message]

theorem enqueue_response_message_event_cache (s : ClientPSMoveAPIImpl)
    (code : eClientPSMoveResultCode) (id : t_request_id) (r : ResponsePtr) :
    (enqueue_response_message s code id r).m_event_reference_cache =
      s.m_event_reference_cache := by
  cases r <;> rfl

theorem enqueue_response_message_registry (s : ClientPSMoveAPIImpl)
    (code : eClientPSMoveResultCode) (id : t_request_id) (r : ResponsePtr) :
    (enqueue_response_message s code id r).m_controller_view_map = s.m_controller_view_map ∧
    (enqueue_response_message s code id r).heap = s.heap := by
  cases r <;> exact ⟨rfl, rfl⟩

theorem enqueue_event_message_queue (s : ClientPSMoveAPIImpl)
    (kind : eClientPSMoveAPIEvent) (r : ResponsePtr) :
    (enqueue_event_message s kind r).m_message_queue =
      s.m_message_queue ++ [Message.event kind (ResponsePtr.handle r)] := by
  cases r <;> rfl

theorem enqueue_event_message_event_cache (s : ClientPSMoveAPIImpl)
    (kind : eClientPSMoveAPIEvent) (r : ResponsePtr) :
    (enqueue_event_message s kind r).m_event_reference_cache =
      s.m_event_reference_cache ++ r.toList := by
  cases r <;> simp [enqueue_event_message]

theorem enqueue_event_message_response_cache (s : ClientPSMoveAPIImpl)
    (kind : eClientPSMoveAPIEvent) (r : ResponsePtr) :
    (enqueue_event_message s kind r).m_response_reference_cache =
      s.m_response_reference_cache := by
  cases r <;> rfl

theorem enqueue_event_message_registry (s : ClientPSMoveAPIImpl)
    (kind : eClientPSMoveAPIEvent) (r : ResponsePtr) :
    (enqueue_event_message s kind r).m_controller_view_map = s.m_controller_view_map ∧
    (enqueue_event_message s kind r).heap = s.heap := by
  cases r <;> exact ⟨rfl, rfl⟩

/-! ## Lemmas: the registry as seen through device ids -/

theorem listener_count_eq (s : ClientPSMoveAPIImpl) (d : Int) :
    listener_count s d = (registered_view s d).map ClientControllerView.ListenerCount := by
  unfold listener_count registered_view
  cases map_find s.m_controller_view_map d <;> rfl

theorem is_registered_eq (s : ClientPSMoveAPIImpl) (wf : WellFormed s) (d : Int) :
    is_registered s d = (registered_view s d).isSome := by
  unfold is_registered registered_view
  cases hm : map_find s.m_controller_view_map d with
  | none => rfl
  | some p =>
    obtain ⟨v, hv, _, _⟩ := wf.entry_live d p hm
    simp [hv]

theorem RegistryWF.ptr_inj {m : List (Int × Nat)} {h : ViewHeap} (wf : RegistryWF m h)
    {d1 d2 : Int} {p : Nat} (h1 : map_find m d1 = some p) (h2 : map_find m d2 = some p) :
    d1 = d2 := by
  obtain ⟨v, hv, hvd, _⟩ := wf.entry_live d1 p h1
  obtain ⟨w, hw, hwd, _⟩ := wf.entry_live d2 p h2
  rw [hv] at hw
  cases hw
  exact hvd.symm.trans hwd

theorem registered_view_allocate {s s1 : ClientPSMoveAPIImpl} (wf : WellFormed s) {d : Int}
    {p : Nat} (h : allocate_controller_view s d = .ok (p, s1)) (d1 : Int) :
    registered_view s1 d1 =
      if d1 = d then
        some (match registered_view s d with
          | some v => v.IncListenerCount
          | none => (ClientControllerView.create d).IncListenerCount)
      else registered_view s d1 := by
  cases hm : map_find s.m_controller_view_map d with
  | none =>
    rw [allocate_unregistered s d hm] at h
    cases h
    by_cases hd : d1 = d
    · subst hd
      simp [registered_view, hm, map_find_insert _ _ _ hm, ViewHeap.read_alloc_write]
    · simp only [registered_view, map_find_insert _ _ _ hm, hd, if_false]
      cases hm1 : map_find s.m_controller_view_map d1 with
      | none => rfl
      | some q =>
        obtain ⟨w, hw, _, _⟩ := wf.entry_live d1 q hm1
        have hne : q ≠ s.heap.next := Nat.ne_of_lt (wf.live_lt hw)
        simp [ViewHeap.read_alloc_write, hne]
  | some q =>
    obtain ⟨v, hv, _, _⟩ := wf.entry_live d q hm
    rw [allocate_registered s d q v hm hv] at h
    cases h
    by_cases hd : d1 = d
    · subst hd
      simp [registered_view, hm, ViewHeap.read_write, hv]
    · simp only [registered_view, hd, if_false]
      cases hm1 : map_find s.m_controller_view_map d1 with
      | none => rfl
      | some q1 =>
        have hne : q1 ≠ p := by
          intro e
          subst e
          exact hd (wf.ptr_inj hm1 hm)
        simp [ViewHeap.read_write, hne]

theorem registered_view_free {s s1 : ClientPSMoveAPIImpl} (wf : WellFormed s) {view : Nat}
    {v : ClientControllerView} (hv : s.heap.read view = some v)
    (h : free_controller_view s view = .ok s1) (d1 : Int) :
    registered_view s1 d1 =
      if d1 = v.ControllerID then
        (if 1 < v.ListenerCount then some v.DecListenerCount else none)
      else registered_view s d1 := by
  have hm := wf.no_leak view v hv
  have hother : ∀ q, map_find s.m_controller_view_map d1 = some q → d1 ≠ v.ControllerID →
      q ≠ view := by
    intro q hq hd e
    subst e
    exact hd (wf.ptr_inj hq hm)
  by_cases hc : v.ListenerCount ≤ 1
  · rw [free_last s view v hv hm hc] at h
    cases h
    have hc1 : ¬ 1 < v.ListenerCount := by omega
    by_cases hd : d1 = v.ControllerID
    · simp [registered_view, map_find_erase _ _ wf.keys_nodup, hd, hc1]
    · simp only [registered_view, map_find_erase _ _ wf.keys_nodup, hd, if_false]
      cases hm1 : map_find s.m_controller_view_map d1 with
      | none => rfl
      | some q =>
        have hne := hother q hm1 hd
        simp [ViewHeap.read_delete, ViewHeap.read_write, hne]
  · have hc1 : 1 < v.ListenerCount := by omega
    rw [free_more s view v hv view hm hc1] at h
    cases h
    by_cases hd : d1 = v.ControllerID
    · simp [registered_view, hd, hm, ViewHeap.read_write, hv, hc1]
    · simp only [registered_view, hd, if_false]
      cases hm1 : map_find s.m_controller_view_map d1 with
      | none => rfl
      | some q =>
        have hne := hother q hm1 hd
        simp [ViewHeap.read_write, hne]

/-- On a well-formed state, freeing the handle registered for an id succeeds. -/
theorem free_registered_ok {s : ClientPSMoveAPIImpl} (wf : WellFormed s) {d : Int} {view : Nat}
    (hm : map_find s.m_controller_view_map d = some view) :
    ∃ v s1, s.heap.read view = some v ∧ v.ControllerID = d ∧ 1 ≤ v.ListenerCount ∧
      free_controller_view s view = .ok s1 ∧ WellFormed s1 := by
  obtain ⟨v, hv, hvd, hvc⟩ := wf.entry_live d view hm
  have hm1 := wf.no_leak view v hv
  by_cases hc : v.ListenerCount ≤ 1
  · have h := free_last s view v hv hm1 hc
    exact ⟨v, _, hv, hvd, hvc, h, wf.free h⟩
  · have hc1 : 1 < v.ListenerCount := by omega
    have h := free_more s view v hv view hm1 hc1
    exact ⟨v, _, hv, hvd, hvc, h, wf.free h⟩

/-! ## Registry reference counting -/

theorem frees_registered_take (calls : List RegistryCall) :
    ∀ (s : ClientPSMoveAPIImpl) (n : Nat), frees_registered s calls = true →
      frees_registered s (calls.take n) = true := by
  induction calls with
  | nil => intro s n _; simp [frees_registered]
  | cons c rest ih =>
    intro s n h
    cases n with
    | zero => simp [frees_registered]
    | succ n =>
      simp only [frees_registered, Bool.and_eq_true] at h
      simp only [List.take_succ_cons, frees_registered, Bool.and_eq_true]
      refine ⟨h.1, ?_⟩
      cases hc : registry_call s c with
      | error e => rfl
      | ok s1 =>
        have h2 := h.2
        rw [hc] at h2
        exact ih s1 n h2

theorem registry_calls_counts (calls : List RegistryCall) :
    ∀ (s : ClientPSMoveAPIImpl) (base : Int → Int), WellFormed s →
      (∀ d, 0 ≤ base d ∧ listener_count s d = if 0 < base d then some (base d) else none) →
      frees_registered s calls = true →
      ∃ s1, registry_calls s calls = .ok s1 ∧ WellFormed s1 ∧
        ∀ d, 0 ≤ base d + net_count d calls ∧
          listener_count s1 d =
            if 0 < base d + net_count d calls then some (base d + net_count d calls)
            else none := by
  induction calls with
  | nil =>
    intro s base wf hb _
    refine ⟨s, rfl, wf, ?_⟩
    intro d
    simpa [net_count] using hb d
  | cons c rest ih =>
    intro s base wf hb hfr
    simp only [frees_registered, Bool.and_eq_true] at hfr
    cases c with
    | allocate d0 =>
      obtain ⟨p, s1, hal, wf1, _⟩ := wf.allocate d0
      have hcall : registry_call s (.allocate d0) = .ok s1 := by
        simp [registry_call, hal]
      have hrest := hfr.2
      rw [hcall] at hrest
      have hb1 : ∀ d, 0 ≤ (fun d => base d + (if d0 = d then 1 else 0)) d ∧
          listener_count s1 d =
            if 0 < (fun d => base d + (if d0 = d then 1 else 0)) d
            then some ((fun d => base d + (if d0 = d then 1 else 0)) d) else none := by
        intro d
        have hbd := hb d
        rw [listener_count_eq] at hbd
        rw [listener_count_eq, registered_view_allocate wf hal d]
        by_cases hd : d = d0
        · subst hd
          cases hv : registered_view s d with
          | none =>
            rw [hv] at hbd
            have h0 : ¬ 0 < base d := by
              intro hpos
              have := hbd.2
              simp [hpos] at this
            have hb0 : base d = 0 := by omega
            simp [ClientControllerView.IncListenerCount, ClientControllerView.create, hb0]
          | some v =>
            rw [hv] at hbd
            have hpos : 0 < base d := by
              by_contra hn
              have := hbd.2
              simp [hn] at this
            have hvc : v.ListenerCount = base d := by
              have := hbd.2
              simpa [hpos] using this
            have hpos1 : 0 < base d + 1 := by omega
            simp [ClientControllerView.IncListenerCount, hvc, hpos1]
            omega
        · have hd1 : ¬ d0 = d := fun e => hd e.symm
          simp only [hd, hd1, if_false, add_zero]
          exact hbd
      obtain ⟨s2, hrun, wf2, hfin⟩ := ih s1 _ wf1 hb1 hrest
      refine ⟨s2, by simp [registry_calls, hcall, hrun], wf2, ?_⟩
      intro d
      have := hfin d
      simp only [net_count]
      simpa [add_assoc] using this
    | free d0 =>
      have hreg : is_registered s d0 = true := hfr.1
      unfold is_registered at hreg
      cases hm : map_find s.m_controller_view_map d0 with
      | none => simp [hm] at hreg
      | some view =>
        obtain ⟨v, s1, hv, hvd, hvc, hfree, wf1⟩ := free_registered_ok wf hm
        have hcall : registry_call s (.free d0) = .ok s1 := by
          simp [registry_call, hm, hfree]
        have hrest := hfr.2
        rw [hcall] at hrest
        have hrv0 : registered_view s d0 = some v := by
          simp [registered_view, hm, hv]
        have hb1 : ∀ d, 0 ≤ (fun d => base d + (if d0 = d then -1 else 0)) d ∧
            listener_count s1 d =
              if 0 < (fun d => base d + (if d0 = d then -1 else 0)) d
              then some ((fun d => base d + (if d0 = d then -1 else 0)) d) else none := by
          intro d
          have hbd := hb d
          rw [listener_count_eq] at hbd
          rw [listener_count_eq, registered_view_free wf hv hfree d, hvd]
          by_cases hd : d = d0
          · subst hd
            rw [hrv0] at hbd
            have hpos : 0 < base d := by
              by_contra hn
              have := hbd.2
              simp [hn] at this
            have hvcb : v.ListenerCount = base d := by
              have := hbd.2
              simpa [hpos] using this
            by_cases h1 : 1 < v.ListenerCount
            · have hpos1 : 0 < base d + -1 := by omega
              simp [h1, ClientControllerView.DecListenerCount, hvcb, hpos1]
              omega
            · have hpos1 : ¬ 0 < base d + -1 := by omega
              simp [h1, hpos1]
              omega
          · have hd1 : ¬ d0 = d := fun e => hd e.symm
            simp only [hd, hd1, if_false, add_zero]
            exact hbd
        obtain ⟨s2, hrun, wf2, hfin⟩ := ih s1 _ wf1 hb1 hrest
        refine ⟨s2, by simp [registry_calls, hcall, hrun], wf2, ?_⟩
        intro d
        have := hfin d
        simp only [net_count]
        simpa [add_assoc] using this

/-- C1: starting from the empty registry of a freshly constructed pipeline, for every
sequence of allocate / free calls in which each free is applied to a currently
registered id, after every prefix of the sequence the calls have all returned, the
registry contains exactly the ids whose allocates minus frees is positive, and the
listener count of each such entry equals that difference. -/
theorem registry_refcounting (host port : String) (calls : List RegistryCall)
    (hfree : frees_registered (ClientPSMoveAPIImpl.create host port) calls = true) (n : Nat) :
    ∃ s, registry_calls (ClientPSMoveAPIImpl.create host port) (calls.take n) = .ok s ∧
      ∀ d, (is_registered s d = true ↔ 0 < net_count d (calls.take n)) ∧
        (0 < net_count d (calls.take n) →
          listener_count s d = some (net_count d (calls.take n))) := by
  have hpre := frees_registered_take calls _ n hfree
  have hb : ∀ d, 0 ≤ (fun _ : Int => (0 : Int)) d ∧
      listener_count (ClientPSMoveAPIImpl.create host port) d =
        if 0 < (fun _ : Int => (0 : Int)) d then some ((fun _ : Int => (0 : Int)) d)
        else none := by
    intro d
    simp [listener_count, ClientPSMoveAPIImpl.create, map_find]
  obtain ⟨s, hrun, wf, hfin⟩ :=
    registry_calls_counts (calls.take n) _ _ (WellFormed.create host port) hb hpre
  refine ⟨s, hrun, ?_⟩
  intro d
  have hd := (hfin d).2
  simp only [zero_add] at hd
  have hreg : is_registered s d = (listener_count s d).isSome := by
    rw [is_registered_eq s wf, listener_count_eq]
    cases registered_view s d <;> rfl
  rw [hreg, hd]
  constructor
  · by_cases hpos : 0 < net_count d (List.take n calls)
    · simp [hpos]
    · simp [hpos]
  · intro hpos
    simp [hpos]

/-- Witness of C1 on allocate 7, allocate 7, free 7, allocate 3. -/
theorem registry_refcounting_witness :
    ∃ s, registry_calls (ClientPSMoveAPIImpl.create "localhost" "9512")
        ([RegistryCall.allocate 7, .allocate 7, .free 7, .allocate 3].take 3) = .ok s ∧
      ∀ d, (is_registered s d = true ↔
          0 < net_count d ([RegistryCall.allocate 7, .allocate 7, .free 7, .allocate 3].take 3)) ∧
        (0 < net_count d ([RegistryCall.allocate 7, .allocate 7, .free 7, .allocate 3].take 3) →
          listener_count s d =
            some (net_count d
              ([RegistryCall.allocate 7, .allocate 7, .free 7, .allocate 3].take 3))) :=
  registry_refcounting "localhost" "9512"
    [RegistryCall.allocate 7, .allocate 7, .free 7, .allocate 3] (by decide) 3

/-! ## Lemmas: commands touch the request manager only -/

theorem send_and_return_id_frame (s : ClientPSMoveAPIImpl) (request : Request) :
    same_but_requests s (send_and_return_id s request).2 :=
  ⟨rfl, rfl, rfl, rfl, rfl, rfl⟩

theorem run_command_frame {k : Nat} {s : ClientPSMoveAPIImpl} {c : Command}
    {r : t_request_id × ClientPSMoveAPIImpl} (h : run_command k s c = .ok r) :
    same_but_requests s r.2 := by
  cases c with
  | start_controller_data_stream view flags =>
    simp only [run_command, start_controller_data_stream] at h
    split at h
    · cases h
    · simp only [Except.ok.injEq] at h
      rw [← h]
      exact send_and_return_id_frame _ _
  | stop_controller_data_stream view =>
    simp only [run_command, stop_controller_data_stream] at h
    split at h
    · cases h
    · simp only [Except.ok.injEq] at h
      rw [← h]
      exact send_and_return_id_frame _ _
  | set_controller_rumble view rumble =>
    simp only [run_command, set_controller_rumble] at h
    split at h
    · cases h
    · split at h
      · cases h
      · simp only [Except.ok.injEq] at h
        rw [← h]
        exact send_and_return_id_frame _ _
  | set_led_color view r g b =>
    simp only [run_command, set_led_color] at h
    split at h
    · cases h
    · split at h
      · cases h
      · simp only [Except.ok.injEq] at h
        rw [← h]
        exact send_and_return_id_frame _ _
  | reset_pose view =>
    simp only [run_command, reset_pose] at h
    split at h
    · cases h
    · simp only [Except.ok.injEq] at h
      rw [← h]
      exact send_and_return_id_frame _ _
  | send_opaque_request request_handle =>
    simp only [run_command, send_opaque_request] at h
    split at h
    · cases h
    · simp only [Except.ok.injEq] at h
      rw [← h]
      exact send_and_return_id_frame _ _

/-! ## Every reachable state is well-formed -/

theorem WellFormed.of_registry_eq {s s1 : ClientPSMoveAPIImpl} (wf : WellFormed s)
    (hm : s1.m_controller_view_map = s.m_controller_view_map) (hh : s1.heap = s.heap) :
    WellFormed s1 := by
  unfold WellFormed at *
  rw [hm, hh]
  exact wf

theorem WellFormed.deliver {s s1 : ClientPSMoveAPIImpl} (wf : WellFormed s) {a : Arrival}
    (h : deliver s a = .ok s1) : WellFormed s1 := by
  cases a with
  | data_frame f =>
    obtain ⟨s2, h2, wf2, _⟩ := wf.handle_data_frame f
    simp only [PSMove.deliver, h2, Except.ok.injEq] at h
    rw [← h]
    exact wf2
  | notification n =>
    cases n with
    | none => simp [PSMove.deliver, handle_notification] at h
    | some r =>
      by_cases hid : r.request_id = -1
      · simp only [PSMove.deliver, handle_notification, hid, ne_eq, not_true_eq_false,
          if_false, Except.ok.injEq] at h
        rw [← h]
        exact wf.of_registry_eq (enqueue_event_message_registry _ _ _).1
          (enqueue_event_message_registry _ _ _).2
      · simp [PSMove.deliver, handle_notification, hid] at h
  | response code id r =>
    simp only [PSMove.deliver, Except.ok.injEq] at h
    rw [← h]
    exact wf.of_registry_eq (enqueue_response_message_registry _ _ _ _).1
      (enqueue_response_message_registry _ _ _ _).2
  | connection_opened =>
    simp only [PSMove.deliver, Except.ok.injEq] at h
    rw [← h]
    exact wf
  | connection_open_failed ec =>
    simp only [PSMove.deliver, Except.ok.injEq] at h
    rw [← h]
    exact wf
  | connection_closed =>
    simp only [PSMove.deliver, Except.ok.injEq] at h
    rw [← h]
    exact wf
  | connection_close_failed ec =>
    simp only [PSMove.deliver, Except.ok.injEq] at h
    rw [← h]
    exact wf
  | connection_socket_error ec =>
    simp only [PSMove.deliver, Except.ok.injEq] at h
    rw [← h]
    exact wf

theorem WellFormed.network_manager_update (arrivals : List Arrival) :
    ∀ {s s1 : ClientPSMoveAPIImpl}, WellFormed s →
      network_manager_update s arrivals = .ok s1 → WellFormed s1 := by
  induction arrivals with
  | nil =>
    intro s s1 wf h
    simp only [PSMove.network_manager_update, Except.ok.injEq] at h
    rw [← h]
    exact wf
  | cons a rest ih =>
    intro s s1 wf h
    cases hd : PSMove.deliver s a with
    | error e => simp [PSMove.network_manager_update, hd] at h
    | ok s2 =>
      simp only [PSMove.network_manager_update, hd] at h
      exact ih (wf.deliver hd) h

theorem WellFormed.step {sz : Nat} {s s1 : ClientPSMoveAPIImpl} (wf : WellFormed s) {c : Call}
    (h : step sz s c = .ok s1) : WellFormed s1 := by
  cases c with
  | update arrivals =>
    have wf0 : WellFormed (clear_messages s) := wf
    exact WellFormed.network_manager_update arrivals wf0 h
  | poll_next_message message message_size =>
    cases hq : s.m_message_queue with
    | nil =>
      simp only [PSMove.step, poll_next_message, hq, Except.ok.injEq] at h
      rw [← h]
      exact wf
    | cons first rest =>
      by_cases hsz : sz = message_size
      · cases message with
        | none => simp [PSMove.step, poll_next_message, hq, hsz] at h
        | some m =>
          simp only [PSMove.step, poll_next_message, hq, hsz, ne_eq, not_true_eq_false,
            if_false, Except.ok.injEq] at h
          rw [← h]
          exact wf
      · simp [PSMove.step, poll_next_message, hq, hsz] at h
  | allocate_controller_view d =>
    obtain ⟨p, s2, hal, wf2, _⟩ := wf.allocate d
    simp only [PSMove.step, hal, Except.ok.injEq] at h
    rw [← h]
    exact wf2
  | free_controller_view view => exact wf.free h
  | callback a => exact wf.deliver h
  | command k cmd =>
    cases hc : run_command k s cmd with
    | error e => simp [PSMove.step, hc] at h
    | ok r =>
      simp only [PSMove.step, hc, Except.ok.injEq] at h
      rw [← h]
      exact wf.of_registry_eq (run_command_frame hc).1 (run_command_frame hc).2.1

theorem Reachable.wellFormed {sz : Nat} {s : ClientPSMoveAPIImpl} (h : Reachable sz s) :
    WellFormed s := by
  induction h with
  | create host port => exact WellFormed.create host port
  | step c _ hstep ih => exact ih.step hstep

theorem map_find_of_mem {α : Type} (m : List (Int × α)) (hn : (map_keys m).Nodup)
    (d : Int) (p : α) (hmem : (d, p) ∈ m) : map_find m d = some p := by
  induction m with
  | nil => cases hmem
  | cons e rest ih =>
    obtain ⟨k0, v0⟩ := e
    have hn1 : k0 ∉ map_keys rest ∧ (map_keys rest).Nodup := by
      simpa [map_keys] using hn
    rcases List.mem_cons.mp hmem with h | h
    · cases h
      simp [map_find]
    · have hk : k0 ≠ d := by
        intro e
        subst e
        apply hn1.1
        simp only [map_keys, List.mem_map]
        exact ⟨(k0, p), h, rfl⟩
      simp only [map_find, hk, if_false]
      exact ih hn1.2 h

/-! ## Registry claims -/

/-- C5: in every registry state, `free_controller_view` on a view handle whose device
id is not currently registered fails: it returns no state (so nothing is modified and
it does not silently succeed); the fault is the registered-entry assertion whenever
the handle still points to a view, and the dereference of the handle when the view
was already destroyed. -/
theorem free_unregistered_fails (s : ClientPSMoveAPIImpl) (view : Nat)
    (h : view_device_registered s view = false) :
    (∀ s1, free_controller_view s view ≠ .ok s1) ∧
    (∀ v, s.heap.read view = some v →
      free_controller_view s view = .error .assertion_failed) ∧
    (s.heap.read view = none → free_controller_view s view = .error .invalid_pointer) := by
  unfold view_device_registered at h
  cases hv : s.heap.read view with
  | none =>
    refine ⟨?_, ?_, ?_⟩
    · intro s1
      simp [free_controller_view, hv]
    · intro v hv1
      cases hv1
    · intro _
      simp [free_controller_view, hv]
  | some v =>
    rw [hv] at h
    simp only [is_registered] at h
    cases hm : map_find s.m_controller_view_map v.ControllerID with
    | some p => simp [hm] at h
    | none =>
      refine ⟨?_, ?_, ?_⟩
      · intro s1
        simp [free_controller_view, hv, hm]
      · intro v1 hv1
        simp [free_controller_view, hv, hm]
      · intro hv1
        cases hv1

/-- Witness of C5: a second free of the only handle of device 7. -/
theorem free_unregistered_fails_witness :
    (∀ s1, free_controller_view
        ({ ClientPSMoveAPIImpl.create "localhost" "9512" with
            heap := { objs := [], next := 1 } }) 0 ≠ .ok s1) ∧
    (∀ v, ({ ClientPSMoveAPIImpl.create "localhost" "9512" with
            heap := { objs := [], next := 1 } }).heap.read 0 = some v →
      free_controller_view
        ({ ClientPSMoveAPIImpl.create "localhost" "9512" with
            heap := { objs := [], next := 1 } }) 0 = .error .assertion_failed) ∧
    (({ ClientPSMoveAPIImpl.create "localhost" "9512" with
            heap := { objs := [], next := 1 } }).heap.read 0 = none →
      free_controller_view
        ({ ClientPSMoveAPIImpl.create "localhost" "9512" with
            heap := { objs := [], next := 1 } }) 0 = .error .invalid_pointer) :=
  free_unregistered_fails _ 0 (by decide)

/-- C6: in every state reachable from the freshly constructed pipeline by update,
poll_next_message, allocate_controller_view, free_controller_view and the transport
callbacks (data frames among them), the device-id keys of the registry are unique and
every registry entry points to a live view with that id and listener count at least
one; no entry with count 0 is left in the map. -/
theorem reachable_registry_invariant (sz : Nat) (s : ClientPSMoveAPIImpl)
    (h : Reachable sz s) :
    (map_keys s.m_controller_view_map).Nodup ∧
    ∀ e ∈ s.m_controller_view_map,
      ∃ v, s.heap.read e.2 = some v ∧ v.ControllerID = e.1 ∧ 1 ≤ v.ListenerCount := by
  have wf := h.wellFormed
  refine ⟨wf.keys_nodup, ?_⟩
  intro e he
  exact wf.entry_live e.1 e.2 (map_find_of_mem _ wf.keys_nodup e.1 e.2 he)

/-- Witness of C6 at the state after one allocate of device 7. -/
theorem reachable_registry_invariant_witness :
    (map_keys pipeline_with_view7.m_controller_view_map).Nodup ∧
    ∀ e ∈ pipeline_with_view7.m_controller_view_map,
      ∃ v, pipeline_with_view7.heap.read e.2 = some v ∧ v.ControllerID = e.1 ∧
        1 ≤ v.ListenerCount :=
  reachable_registry_invariant 16 pipeline_with_view7
    (Reachable.step (Call.allocate_controller_view 7)
      (Reachable.create "localhost" "9512") rfl)

theorem listener_count_of_entry {s : ClientPSMoveAPIImpl} {d : Int} {view : Nat}
    {v : ClientControllerView} (hm : map_find s.m_controller_view_map d = some view)
    (hv : s.heap.read view = some v) : listener_count s d = some v.ListenerCount := by
  simp [listener_count, hm, hv]

theorem is_registered_of_listener_count {s : ClientPSMoveAPIImpl} {d : Int} {c : Int}
    (h : listener_count s d = some c) : is_registered s d = true := by
  unfold listener_count at h
  unfold is_registered
  cases hm : map_find s.m_controller_view_map d with
  | none => simp [hm] at h
  | some p => rfl

theorem not_registered_of_listener_count {s : ClientPSMoveAPIImpl} (wf : WellFormed s)
    {d : Int} (h : listener_count s d = none) : is_registered s d = false := by
  rw [is_registered_eq s wf]
  rw [listener_count_eq] at h
  cases hr : registered_view s d with
  | none => rfl
  | some v => simp [hr] at h

/-- Freeing the view registered for `d`, seen through device ids. -/
theorem free_registered_counts {s : ClientPSMoveAPIImpl} (wf : WellFormed s) {d : Int}
    {view : Nat} (hm : map_find s.m_controller_view_map d = some view) :
    ∃ c s1, listener_count s d = some c ∧ 1 ≤ c ∧
      free_controller_view s view = .ok s1 ∧ WellFormed s1 ∧
      (1 < c → map_find s1.m_controller_view_map d = some view ∧
        s1.m_controller_view_map = s.m_controller_view_map ∧
        listener_count s1 d = some (c - 1)) ∧
      (c = 1 → is_registered s1 d = false ∧
        s1.m_controller_view_map = map_erase s.m_controller_view_map d ∧
        s1.heap.read view = none) := by
  obtain ⟨v, s1, hv, hvd, hvc, hfree, wf1⟩ := free_registered_ok wf hm
  have hm1 := wf.no_leak view v hv
  refine ⟨v.ListenerCount, s1, listener_count_of_entry hm hv, hvc, hfree, wf1, ?_, ?_⟩
  · intro hc
    have h := free_more s view v hv view hm1 hc
    rw [hfree] at h
    cases h
    refine ⟨hm, rfl, ?_⟩
    simp [listener_count, hm, ViewHeap.read_write, hv, ClientControllerView.DecListenerCount]
  · intro hc
    have h := free_last s view v hv hm1 (by omega)
    rw [hfree] at h
    cases h
    refine ⟨?_, by rw [hvd], ?_⟩
    · simp [is_registered, map_find_erase _ _ wf.keys_nodup, hvd]
    · simp [ViewHeap.read_delete]

/-- C7: on every reachable state, freeing the view registered for a device with
listener count c returns; when c > 1 the entry stays registered, under the same
handle, with count c - 1, and when c = 1 the entry is erased in that same call.  In
particular, for a device d that is not registered: two allocates give the same handle
and count 2, one free leaves d registered with count 1, the second free leaves d
unregistered, and a data frame for d applied afterwards returns the state unchanged. -/
theorem free_decrements_and_erases (sz : Nat) (s : ClientPSMoveAPIImpl)
    (hr : Reachable sz s) :
    (∀ d view, map_find s.m_controller_view_map d = some view →
      ∃ c s1, listener_count s d = some c ∧ free_controller_view s view = .ok s1 ∧
        (1 < c → is_registered s1 d = true ∧ listener_count s1 d = some (c - 1) ∧
          s1.m_controller_view_map = s.m_controller_view_map) ∧
        (c = 1 → is_registered s1 d = false ∧
          s1.m_controller_view_map = map_erase s.m_controller_view_map d)) ∧
    (∀ d, is_registered s d = false →
      ∃ view s1 s2 s3 s4,
        allocate_controller_view s d = .ok (view, s1) ∧
        allocate_controller_view s1 d = .ok (view, s2) ∧
        listener_count s2 d = some 2 ∧
        free_controller_view s2 view = .ok s3 ∧
        is_registered s3 d = true ∧ listener_count s3 d = some 1 ∧
        free_controller_view s3 view = .ok s4 ∧
        is_registered s4 d = false ∧
        ∀ f : ControllerDataFrame, f.controller_id = d → handle_data_frame s4 f = .ok s4) := by
  have wf := hr.wellFormed
  refine ⟨?_, ?_⟩
  · intro d view hm
    obtain ⟨c, s1, hc, _, hfree, _, hmore, hlast⟩ := free_registered_counts wf hm
    refine ⟨c, s1, hc, hfree, ?_, ?_⟩
    · intro h1
      obtain ⟨_, hmap, hcnt⟩ := hmore h1
      exact ⟨is_registered_of_listener_count hcnt, hcnt, hmap⟩
    · intro h1
      exact ⟨(hlast h1).1, (hlast h1).2.1⟩
  · intro d hd
    have hnone : registered_view s d = none := by
      have := is_registered_eq s wf d
      rw [hd] at this
      cases hrv : registered_view s d with
      | none => rfl
      | some v => simp [hrv] at this
    obtain ⟨view, s1, hal1, wf1, hm1⟩ := wf.allocate d
    have hrv1 := registered_view_allocate wf hal1 d
    simp only [if_true, hnone] at hrv1
    obtain ⟨view2, s2, hal2, wf2, hm2⟩ := wf1.allocate d
    have hrv2 := registered_view_allocate wf1 hal2 d
    simp only [if_true, hrv1] at hrv2
    have hview : view2 = view := by
      obtain ⟨v, hv, _, _⟩ := wf1.entry_live d view hm1
      have h := allocate_registered s1 d view v hm1 hv
      rw [hal2] at h
      cases h
      rfl
    subst hview
    have hc2 : listener_count s2 d = some 2 := by
      rw [listener_count_eq, hrv2]
      simp [ClientControllerView.IncListenerCount, ClientControllerView.create]
    obtain ⟨c, s3, hc, _, hfree3, wf3, hmore3, _⟩ := free_registered_counts wf2 hm2
    rw [hc2] at hc
    cases hc
    obtain ⟨hm3, _, hc3⟩ := hmore3 (by decide)
    have hc3' : listener_count s3 d = some 1 := by simpa using hc3
    obtain ⟨c4, s4, hc4, _, hfree4, wf4, _, hlast4⟩ := free_registered_counts wf3 hm3
    rw [hc3'] at hc4
    cases hc4
    obtain ⟨hreg4, _, _⟩ := hlast4 rfl
    refine ⟨view2, s1, s2, s3, s4, hal1, hal2, hc2, hfree3,
      is_registered_of_listener_count hc3', hc3', hfree4, hreg4, ?_⟩
    intro f hf
    unfold is_registered at hreg4
    cases hm4 : map_find s4.m_controller_view_map d with
    | some p => simp [hm4] at hreg4
    | none => simp [handle_data_frame, hf, hm4]

/-- Witness of C7: the allocate, allocate, free, free scenario for device 7 on the
freshly constructed pipeline. -/
theorem free_decrements_and_erases_witness :
    ∃ view s1 s2 s3 s4,
      allocate_controller_view fresh_pipeline 7 = .ok (view, s1) ∧
      allocate_controller_view s1 7 = .ok (view, s2) ∧
      listener_count s2 7 = some 2 ∧
      free_controller_view s2 view = .ok s3 ∧
      is_registered s3 7 = true ∧ listener_count s3 7 = some 1 ∧
      free_controller_view s3 view = .ok s4 ∧
      is_registered s4 7 = false ∧
      ∀ f : ControllerDataFrame, f.controller_id = 7 → handle_data_frame s4 f = .ok s4 :=
  (free_decrements_and_erases 16 fresh_pipeline (Reachable.create "localhost" "9512")).2 7
    (by decide)

theorem listener_count_allocate {s s1 : ClientPSMoveAPIImpl} (wf : WellFormed s) {d : Int}
    {p : Nat} (h : allocate_controller_view s d = .ok (p, s1)) :
    listener_count s1 d = some ((listener_count s d).getD 0 + 1) := by
  rw [listener_count_eq, listener_count_eq, registered_view_allocate wf h d]
  cases registered_view s d <;>
    simp [ClientControllerView.IncListenerCount, ClientControllerView.create]

theorem allocate_repeatedly (d : Int) (n : Nat) :
    ∀ s : ClientPSMoveAPIImpl, WellFormed s →
      ∃ s1, registry_calls s (List.replicate (n + 1) (RegistryCall.allocate d)) = .ok s1 ∧
        WellFormed s1 ∧
        listener_count s1 d = some ((listener_count s d).getD 0 + ((n : Int) + 1)) := by
  induction n with
  | zero =>
    intro s wf
    obtain ⟨p, s1, hal, wf1, _⟩ := wf.allocate d
    refine ⟨s1, by simp [registry_calls, registry_call, hal], wf1, ?_⟩
    simpa using listener_count_allocate wf hal
  | succ n ih =>
    intro s wf
    obtain ⟨p, s1, hal, wf1, _⟩ := wf.allocate d
    obtain ⟨s2, hrun, wf2, hc⟩ := ih s1 wf1
    refine ⟨s2, ?_, wf2, ?_⟩
    · rw [List.replicate_succ]
      simp only [registry_calls, registry_call, hal]
      exact hrun
    · rw [hc, listener_count_allocate wf hal]
      simp only [Option.getD_some, Option.some.injEq]
      push_cast
      ring

/-- C8: on every reachable state, `allocate_controller_view(d)` returns.  When an
entry for d exists it returns that entry's handle, leaves the map (and so the key
set) unchanged and raises the listener count by exactly one.  Otherwise it returns a
handle that was not live before, inserts it under d, and the new view has listener
count exactly 1; the other ids keep their registration.  There is no upper bound:
n successive allocates of an unregistered d give count n, for every n ≥ 1. -/
theorem allocate_shares_or_creates (sz : Nat) (s : ClientPSMoveAPIImpl)
    (hr : Reachable sz s) (d : Int) :
    (∀ view, map_find s.m_controller_view_map d = some view →
      ∃ c s1, listener_count s d = some c ∧
        allocate_controller_view s d = .ok (view, s1) ∧
        s1.m_controller_view_map = s.m_controller_view_map ∧
        listener_count s1 d = some (c + 1)) ∧
    (map_find s.m_controller_view_map d = none →
      ∃ view s1, allocate_controller_view s d = .ok (view, s1) ∧
        s.heap.read view = none ∧
        s1.m_controller_view_map = map_insert s.m_controller_view_map d view ∧
        map_find s1.m_controller_view_map d = some view ∧
        s1.heap.read view = some { ControllerID := d, ListenerCount := 1, state := none } ∧
        listener_count s1 d = some 1 ∧
        ∀ d1, is_registered s1 d1 = (decide (d1 = d) || is_registered s d1)) ∧
    (∀ n : Nat, 1 ≤ n → is_registered s d = false →
      ∃ s1, registry_calls s (List.replicate n (RegistryCall.allocate d)) = .ok s1 ∧
        listener_count s1 d = some (n : Int)) := by
  have wf := hr.wellFormed
  refine ⟨?_, ?_, ?_⟩
  · intro view hm
    obtain ⟨v, hv, _, _⟩ := wf.entry_live d view hm
    have hal := allocate_registered s d view v hm hv
    have hc := listener_count_of_entry hm hv
    refine ⟨v.ListenerCount, _, hc, hal, rfl, ?_⟩
    rw [listener_count_allocate wf hal, hc]
    rfl
  · intro hm
    have hal := allocate_unregistered s d hm
    refine ⟨_, _, hal, wf.fresh _ (Nat.le_refl _), rfl, ?_, ?_, ?_, ?_⟩
    · simp [map_find_insert _ _ _ hm]
    · simp [ViewHeap.read_alloc_write, ClientControllerView.IncListenerCount,
        ClientControllerView.create]
    · rw [listener_count_allocate wf hal]
      simp [listener_count, hm]
    · intro d1
      simp only [is_registered, map_find_insert _ _ _ hm]
      by_cases hd : d1 = d
      · simp [hd]
      · simp [hd]
  · intro n hn hreg
    obtain ⟨m, rfl⟩ : ∃ m, n = m + 1 := ⟨n - 1, by omega⟩
    obtain ⟨s1, hrun, _, hc⟩ := allocate_repeatedly d m s wf
    refine ⟨s1, hrun, ?_⟩
    have h0 : listener_count s d = none := by
      unfold is_registered at hreg
      unfold listener_count
      cases hm : map_find s.m_controller_view_map d with
      | none => rfl
      | some p => simp [hm] at hreg
    rw [hc, h0]
    simp

/-- Witness of C8: five successive allocates of device 7 on the freshly constructed
pipeline give listener count 5. -/
theorem allocate_shares_or_creates_witness :
    ∃ s1, registry_calls fresh_pipeline (List.replicate 5 (RegistryCall.allocate 7)) = .ok s1 ∧
      listener_count s1 7 = some ((5 : Nat) : Int) :=
  (allocate_shares_or_creates 16 fresh_pipeline (Reachable.create "localhost" "9512") 7).2.2
    5 (by decide) (by decide)

/-! ## Lemmas: arrivals and the queue -/

theorem handle_data_frame_frame {s s1 : ClientPSMoveAPIImpl} {f : ControllerDataFrame}
    (h : handle_data_frame s f = .ok s1) :
    s1.m_message_queue = s.m_message_queue ∧
    s1.m_response_reference_cache = s.m_response_reference_cache ∧
    s1.m_event_reference_cache = s.m_event_reference_cache ∧
    s1.m_controller_view_map = s.m_controller_view_map := by
  unfold handle_data_frame at h
  cases hm : map_find s.m_controller_view_map f.controller_id with
  | none =>
    simp only [hm, Except.ok.injEq] at h
    subst h
    exact ⟨rfl, rfl, rfl, rfl⟩
  | some p =>
    cases hv : s.heap.read p with
    | none => simp [hm, hv] at h
    | some v =>
      simp only [hm, hv, Except.ok.injEq] at h
      subst h
      exact ⟨rfl, rfl, rfl, rfl⟩

/-- What a callback that returned did to the queue and the two caches. -/
theorem deliver_ok_effect {s s1 : ClientPSMoveAPIImpl} {a : Arrival}
    (h : deliver s a = .ok s1) :
    s1.m_message_queue = s.m_message_queue ++ (spec_message a).toList ∧
    s1.m_response_reference_cache = s.m_response_reference_cache ++ spec_response_payload a ∧
    s1.m_event_reference_cache = s.m_event_reference_cache ++ spec_event_payload a := by
  cases a with
  | data_frame f =>
    obtain ⟨hq, hr, he, _⟩ := handle_data_frame_frame h
    simp [spec_message, spec_response_payload, spec_event_payload, hq, hr, he]
  | notification n =>
    cases n with
    | none => simp [deliver, handle_notification] at h
    | some r =>
      by_cases hid : r.request_id = -1
      · simp only [deliver, handle_notification, hid, ne_eq, not_true_eq_false,
          if_false, Except.ok.injEq] at h
        subst h
        rw [enqueue_event_message_queue, enqueue_event_message_event_cache,
          enqueue_event_message_response_cache]
        refine ⟨?_, by simp [spec_response_payload], by simp [spec_event_payload]⟩
        cases ht : r.type <;> simp [spec_message, spec_event_kind, ResponsePtr.handle, ht]
      · simp [deliver, handle_notification, hid] at h
  | response code id r =>
    simp only [deliver, Except.ok.injEq] at h
    subst h
    rw [enqueue_response_message_queue, enqueue_response_message_event_cache,
      enqueue_response_message_response_cache]
    cases r <;> simp [spec_message, spec_response_payload, spec_event_payload,
      ResponsePtr.handle]
  | connection_opened =>
    simp only [deliver, Except.ok.injEq] at h
    subst h
    simp [handle_server_connection_opened, enqueue_event_message, spec_message,
      spec_response_payload, spec_event_payload, ResponsePtr.handle]
  | connection_open_failed ec =>
    simp only [deliver, Except.ok.injEq] at h
    subst h
    simp [handle_server_connection_open_failed, enqueue_event_message, spec_message,
      spec_response_payload, spec_event_payload, ResponsePtr.handle]
  | connection_closed =>
    simp only [deliver, Except.ok.injEq] at h
    subst h
    simp [handle_server_connection_closed, enqueue_event_message, spec_message,
      spec_response_payload, spec_event_payload, ResponsePtr.handle]
  | connection_close_failed ec =>
    simp only [deliver, Except.ok.injEq] at h
    subst h
    simp [handle_server_connection_close_failed, spec_message,
      spec_response_payload, spec_event_payload]
  | connection_socket_error ec =>
    simp only [deliver, Except.ok.injEq] at h
    subst h
    simp [handle_server_connection_socket_error, spec_message,
      spec_response_payload, spec_event_payload]

theorem handle_notification_ok (s : ClientPSMoveAPIImpl) (r : Response)
    (hid : r.request_id = -1) :
    handle_notification s (some r) =
      .ok (enqueue_event_message s (spec_event_kind r.type) (some r)) := by
  simp only [handle_notification, hid, ne_eq, not_true_eq_false, if_false]
  cases r.type <;> rfl

/-- A well-formed arrival is accepted; only a data frame needs the registry to be
well-formed. -/
theorem deliver_succeeds (s : ClientPSMoveAPIImpl) (a : Arrival)
    (hw : well_formed_arrival a = true)
    (hs : WellFormed s ∨ ∀ f, a ≠ .data_frame f) :
    ∃ s1, deliver s a = .ok s1 := by
  cases a with
  | data_frame f =>
    rcases hs with wf | hn
    · obtain ⟨s1, h1, _⟩ := wf.handle_data_frame f
      exact ⟨s1, h1⟩
    · exact absurd rfl (hn f)
  | notification n =>
    cases n with
    | none => simp [well_formed_arrival] at hw
    | some r =>
      have hid : r.request_id = -1 := by simpa [well_formed_arrival] using hw
      exact ⟨_, handle_notification_ok s r hid⟩
  | response code id r => exact ⟨_, rfl⟩
  | connection_opened => exact ⟨_, rfl⟩
  | connection_open_failed ec => exact ⟨_, rfl⟩
  | connection_closed => exact ⟨_, rfl⟩
  | connection_close_failed ec => exact ⟨_, rfl⟩
  | connection_socket_error ec => exact ⟨_, rfl⟩

theorem network_manager_update_effect (arrivals : List Arrival) :
    ∀ s : ClientPSMoveAPIImpl, (∀ a ∈ arrivals, well_formed_arrival a = true) →
      (WellFormed s ∨ ∀ a ∈ arrivals, ∀ f, a ≠ .data_frame f) →
      ∃ s1, network_manager_update s arrivals = .ok s1 ∧
        s1.m_message_queue = s.m_message_queue ++ spec_messages arrivals ∧
        s1.m_response_reference_cache =
          s.m_response_reference_cache ++ spec_response_cache arrivals ∧
        s1.m_event_reference_cache =
          s.m_event_reference_cache ++ spec_event_cache arrivals := by
  induction arrivals with
  | nil =>
    intro s _ _
    exact ⟨s, rfl, by simp [spec_messages], by simp [spec_response_cache],
      by simp [spec_event_cache]⟩
  | cons a rest ih =>
    intro s hw hs
    have hs1 : WellFormed s ∨ ∀ f, a ≠ .data_frame f := by
      rcases hs with wf | hn
      · exact Or.inl wf
      · exact Or.inr (hn a (List.mem_cons_self a rest))
    obtain ⟨s1, h1⟩ := deliver_succeeds s a (hw a (List.mem_cons_self a rest)) hs1
    obtain ⟨hq, hr, he⟩ := deliver_ok_effect h1
    have hs2 : WellFormed s1 ∨ ∀ b ∈ rest, ∀ f, b ≠ .data_frame f := by
      rcases hs with wf | hn
      · exact Or.inl (wf.deliver h1)
      · exact Or.inr (fun b hb => hn b (List.mem_cons_of_mem a hb))
    obtain ⟨s2, h2, hq2, hr2, he2⟩ :=
      ih s1 (fun b hb => hw b (List.mem_cons_of_mem a hb)) hs2
    refine ⟨s2, by simp [network_manager_update, h1, h2], ?_, ?_, ?_⟩
    · rw [hq2, hq, spec_messages, List.append_assoc]
    · rw [hr2, hr, spec_response_cache, List.append_assoc]
    · rw [he2, he, spec_event_cache, List.append_assoc]

theorem poll_next_message_nonempty (sz : Nat) (s : ClientPSMoveAPIImpl) (buffer first : Message)
    (rest : List Message) (hq : s.m_message_queue = first :: rest) :
    poll_next_message sz s (some buffer) sz =
      .ok (true, some first, { s with m_message_queue := rest }) := by
  simp [poll_next_message, hq]

theorem poll_next_message_empty (sz : Nat) (s : ClientPSMoveAPIImpl) (message : Option Message)
    (size : Nat) (hq : s.m_message_queue = []) :
    poll_next_message sz s message size = .ok (false, message, s) := by
  simp [poll_next_message, hq]

theorem poll_repeatedly_succ (sz n : Nat) (s : ClientPSMoveAPIImpl) (buffer : Message) :
    poll_repeatedly sz (n + 1) s buffer =
      match poll_next_message sz s (some buffer) sz with
      | .error e => .error e
      | .ok (has_message, out, s1) =>
        match poll_repeatedly sz n s1 (out.getD buffer) with
        | .error e => .error e
        | .ok (later, s2) => .ok ((if has_message then out else none) :: later, s2) := rfl

/-- Polling one more time than the queue is long hands out the queue in order and
then reports that it is empty. -/
theorem poll_repeatedly_drains (sz : Nat) (q : List Message) :
    ∀ (s : ClientPSMoveAPIImpl) (buffer : Message), s.m_message_queue = q →
      poll_repeatedly sz (q.length + 1) s buffer =
        .ok (q.map some ++ [none], { s with m_message_queue := [] }) := by
  induction q with
  | nil =>
    intro s buffer hq
    have hs : { s with m_message_queue := [] } = s := by
      cases s
      simp only at hq
      simp [hq]
    simp [poll_repeatedly, poll_next_message_empty sz s _ _ hq, hs]
  | cons first rest ih =>
    intro s buffer hq
    have h1 := poll_next_message_nonempty sz s buffer first rest hq
    have h2 := ih { s with m_message_queue := rest } first rfl
    rw [List.length_cons, poll_repeatedly_succ, h1]
    simp only [Option.getD_some]
    rw [h2]
    simp

theorem spec_message_isSome_of_queued (a : Arrival) (hq : is_queued_arrival a = true)
    (hw : well_formed_arrival a = true) : (spec_message a).isSome = true := by
  cases a with
  | notification n =>
    cases n with
    | none => simp [well_formed_arrival] at hw
    | some r => rfl
  | data_frame f => simp [is_queued_arrival] at hq
  | connection_close_failed ec => simp [is_queued_arrival] at hq
  | connection_socket_error ec => simp [is_queued_arrival] at hq
  | response code id r => rfl
  | connection_opened => rfl
  | connection_open_failed ec => rfl
  | connection_closed => rfl

theorem spec_messages_map_some (arrivals : List Arrival)
    (h : ∀ a ∈ arrivals, (spec_message a).isSome = true) :
    (spec_messages arrivals).map some = arrivals.map spec_message := by
  induction arrivals with
  | nil => rfl
  | cons a rest ih =>
    have ha := h a (List.mem_cons_self a rest)
    have hrest := ih (fun b hb => h b (List.mem_cons_of_mem a hb))
    cases hm : spec_message a with
    | none => simp [hm] at ha
    | some m => simp [spec_messages, hm, hrest]

/-! ## Queue claims -/

/-- C2: for every sequence of N arrivals, each a resolved response, a notification or
a connection opened / open-failed / closed event, delivered to a pipeline whose queue
is empty, all callbacks return, the first N calls of `poll_next_message` return true
and yield the message of the 1st, 2nd, ... N-th arrival in that order, and call N+1
returns false. -/
theorem fifo_ordering (sz : Nat) (s : ClientPSMoveAPIImpl) (arrivals : List Arrival)
    (buffer : Message) (hempty : s.m_message_queue = [])
    (hkind : ∀ a ∈ arrivals, is_queued_arrival a = true ∧ well_formed_arrival a = true) :
    (∀ a ∈ arrivals, (spec_message a).isSome = true) ∧
    ∃ s1 s2, network_manager_update s arrivals = .ok s1 ∧
      poll_repeatedly sz (arrivals.length + 1) s1 buffer =
        .ok (arrivals.map spec_message ++ [none], s2) ∧
      s2.m_message_queue = [] := by
  have hsome : ∀ a ∈ arrivals, (spec_message a).isSome = true :=
    fun a ha => spec_message_isSome_of_queued a (hkind a ha).1 (hkind a ha).2
  refine ⟨hsome, ?_⟩
  have hnodf : ∀ a ∈ arrivals, ∀ f, a ≠ Arrival.data_frame f := by
    intro a ha f e
    subst e
    have := (hkind _ ha).1
    simp [is_queued_arrival] at this
  obtain ⟨s1, h1, hq, _, _⟩ :=
    network_manager_update_effect arrivals s (fun a ha => (hkind a ha).2) (Or.inr hnodf)
  rw [hempty, List.nil_append] at hq
  have hmap := spec_messages_map_some arrivals hsome
  have hlen : (spec_messages arrivals).length = arrivals.length := by
    have := congrArg List.length hmap
    simpa using this
  have hpoll := poll_repeatedly_drains sz (spec_messages arrivals) s1 buffer hq
  rw [hlen, hmap] at hpoll
  exact ⟨s1, _, h1, hpoll, rfl⟩

/-- Witness of C2: a resolved response, a notification and a connection-closed event
delivered to the freshly constructed pipeline. -/
theorem fifo_ordering_witness :
    ∃ s1 s2, network_manager_update fresh_pipeline
        [Arrival.response 0 1 (some sample_response),
          Arrival.notification (some sample_notification), Arrival.connection_closed] = .ok s1 ∧
      poll_repeatedly 16 4 s1 (Message.event .opaqueServiceEvent none) =
        .ok ([some (Message.response 1 0 (some 100)),
              some (Message.event .trackerListUpdated (some 101)),
              some (Message.event .disconnectedFromService none), none], s2) ∧
      s2.m_message_queue = [] :=
  (fifo_ordering 16 fresh_pipeline
    [Arrival.response 0 1 (some sample_response),
      Arrival.notification (some sample_notification), Arrival.connection_closed]
    (Message.event .opaqueServiceEvent none) rfl (by decide)).2

/-- C3: on every reachable state, `update()` with no arrival returns the state with
queue and both caches emptied; the result of `update()` does not depend on what the
queue and the caches held before; and for the arrivals of its transport round it
returns with the queue holding exactly their messages in order and the caches exactly
their payloads, so the polls after it hand out those messages and then report empty. -/
theorem no_cross_cycle_backlog (sz : Nat) (s : ClientPSMoveAPIImpl) (hr : Reachable sz s)
    (arrivals : List Arrival) (hw : ∀ a ∈ arrivals, well_formed_arrival a = true)
    (buffer : Message) :
    (update s [] = .ok (clear_messages s) ∧
      (clear_messages s).m_message_queue = [] ∧
      (clear_messages s).m_response_reference_cache = [] ∧
      (clear_messages s).m_event_reference_cache = []) ∧
    (∀ q rc ec, update { s with
        m_message_queue := q
        m_response_reference_cache := rc
        m_event_reference_cache := ec } arrivals = update s arrivals) ∧
    ∃ s1 s2, update s arrivals = .ok s1 ∧
      s1.m_message_queue = spec_messages arrivals ∧
      s1.m_response_reference_cache = spec_response_cache arrivals ∧
      s1.m_event_reference_cache = spec_event_cache arrivals ∧
      poll_repeatedly sz ((spec_messages arrivals).length + 1) s1 buffer =
        .ok ((spec_messages arrivals).map some ++ [none], s2) := by
  refine ⟨⟨rfl, rfl, rfl, rfl⟩, fun _ _ _ => rfl, ?_⟩
  have wf : WellFormed (clear_messages s) := hr.wellFormed
  obtain ⟨s1, h1, hq, hrc, hec⟩ :=
    network_manager_update_effect arrivals (clear_messages s) hw (Or.inl wf)
  have hq1 : s1.m_message_queue = spec_messages arrivals := by
    rw [hq]
    rfl
  have hrc1 : s1.m_response_reference_cache = spec_response_cache arrivals := by
    rw [hrc]
    rfl
  have hec1 : s1.m_event_reference_cache = spec_event_cache arrivals := by
    rw [hec]
    rfl
  exact ⟨s1, _, h1, hq1, hrc1, hec1,
    poll_repeatedly_drains sz (spec_messages arrivals) s1 buffer hq1⟩

/-- Witness of C3: an unread connection event is on the queue when `update()` runs
with a single connection-closed arrival; only the latter is polled afterwards. -/
theorem no_cross_cycle_backlog_witness :
    ∃ s1 s2, update pipeline_with_unread_event [Arrival.connection_closed] = .ok s1 ∧
      s1.m_message_queue = [Message.event .disconnectedFromService none] ∧
      s1.m_response_reference_cache = [] ∧
      s1.m_event_reference_cache = [] ∧
      poll_repeatedly 16 2 s1 (Message.event .opaqueServiceEvent none) =
        .ok ([some (Message.event .disconnectedFromService none), none], s2) :=
  (no_cross_cycle_backlog 16 pipeline_with_unread_event
    (Reachable.step (Call.callback Arrival.connection_opened)
      (Reachable.create "localhost" "9512") rfl)
    [Arrival.connection_closed] (by decide) (Message.event .opaqueServiceEvent none)).2.2

/-- C9: for every result code, request id and payload, `enqueue_response_message`
appends exactly one message to the back of the queue, tagged Response and carrying
that request id, that result code and the handle of that payload, and appends the
payload to the response cache (a null payload gives a null handle and nothing to
retain); the event cache and the registry are untouched.  Consequently an `update()`
whose only arrival is that resolved response is followed by one poll returning the
Response message and a second poll returning false. -/
theorem response_resolution (sz : Nat) (s : ClientPSMoveAPIImpl)
    (result_code : eClientPSMoveResultCode) (request_id : t_request_id)
    (payload : ResponsePtr) (buffer : Message) :
    (enqueue_response_message s result_code request_id payload).m_message_queue =
      s.m_message_queue ++ [Message.response request_id result_code (payload.map Response.addr)] ∧
    (enqueue_response_message s result_code request_id payload).m_response_reference_cache =
      s.m_response_reference_cache ++ payload.toList ∧
    (enqueue_response_message s result_code request_id payload).m_event_reference_cache =
      s.m_event_reference_cache ∧
    (enqueue_response_message s result_code request_id payload).m_controller_view_map =
      s.m_controller_view_map ∧
    (enqueue_response_message s result_code request_id payload).heap = s.heap ∧
    ∃ s1 s2, update s [Arrival.response result_code request_id payload] = .ok s1 ∧
      s1.m_response_reference_cache = payload.toList ∧
      poll_next_message sz s1 (some buffer) sz =
        .ok (true, some (Message.response request_id result_code (payload.map Response.addr)),
          s2) ∧
      poll_next_message sz s2
          (some (Message.response request_id result_code (payload.map Response.addr))) sz =
        .ok (false, some (Message.response request_id result_code (payload.map Response.addr)),
          s2) := by
  refine ⟨enqueue_response_message_queue s _ _ _,
    enqueue_response_message_response_cache s _ _ _,
    enqueue_response_message_event_cache s _ _ _,
    (enqueue_response_message_registry s _ _ _).1,
    (enqueue_response_message_registry s _ _ _).2, ?_⟩
  have hq : (enqueue_response_message (clear_messages s) result_code request_id
      payload).m_message_queue =
      [Message.response request_id result_code (payload.map Response.addr)] := by
    rw [enqueue_response_message_queue]
    rfl
  have hc : (enqueue_response_message (clear_messages s) result_code request_id
      payload).m_response_reference_cache = payload.toList := by
    rw [enqueue_response_message_response_cache]
    rfl
  refine ⟨_, _, rfl, hc, poll_next_message_nonempty sz _ buffer _ [] hq, ?_⟩
  exact poll_next_message_empty sz _ _ sz rfl

/-- C10: for every notification (a response object whose request id is -1, as
`handle_notification` asserts), `handle_notification` returns after appending exactly
one Event message carrying the handle of the notification; its kind is
controllerListUpdated, trackerListUpdated or hmdListUpdated for the notification
types CONTROLLER_LIST_UPDATED, TRACKER_LIST_UPDATED, HMD_LIST_UPDATED (three distinct
kinds) and opaqueServiceEvent for every other type; the notification is appended to
the event cache and the response cache is untouched. -/
theorem notification_classification (s : ClientPSMoveAPIImpl) (n : Response)
    (hid : n.request_id = -1) :
    ∃ kind s1, handle_notification s (some n) = .ok s1 ∧
      s1.m_message_queue = s.m_message_queue ++ [Message.event kind (some n.addr)] ∧
      s1.m_event_reference_cache = s.m_event_reference_cache ++ [n] ∧
      s1.m_response_reference_cache = s.m_response_reference_cache ∧
      (n.type = .CONTROLLER_LIST_UPDATED → kind = .controllerListUpdated) ∧
      (n.type = .TRACKER_LIST_UPDATED → kind = .trackerListUpdated) ∧
      (n.type = .HMD_LIST_UPDATED → kind = .hmdListUpdated) ∧
      (∀ tag, n.type = .other tag → kind = .opaqueServiceEvent) ∧
      eClientPSMoveAPIEvent.controllerListUpdated ≠ eClientPSMoveAPIEvent.trackerListUpdated ∧
      eClientPSMoveAPIEvent.controllerListUpdated ≠ eClientPSMoveAPIEvent.hmdListUpdated ∧
      eClientPSMoveAPIEvent.trackerListUpdated ≠ eClientPSMoveAPIEvent.hmdListUpdated := by
  refine ⟨spec_event_kind n.type, _, handle_notification_ok s n hid, ?_, ?_, ?_,
    ?_, ?_, ?_, ?_, by decide, by decide, by decide⟩
  · rw [enqueue_event_message_queue]
    rfl
  · rw [enqueue_event_message_event_cache]
    rfl
  · rw [enqueue_event_message_response_cache]
  · intro h
    rw [h]
    rfl
  · intro h
    rw [h]
    rfl
  · intro h
    rw [h]
    rfl
  · intro tag h
    rw [h]
    rfl

/-- Witness of C10: a tracker-list notification handled by the freshly constructed
pipeline. -/
theorem notification_classification_witness :
    sample_notification.request_id = -1 ∧
    ∃ kind s1, handle_notification fresh_pipeline (some sample_notification) = .ok s1 ∧
      s1.m_message_queue =
        fresh_pipeline.m_message_queue ++ [Message.event kind (some sample_notification.addr)] ∧
      s1.m_event_reference_cache =
        fresh_pipeline.m_event_reference_cache ++ [sample_notification] ∧
      s1.m_response_reference_cache = fresh_pipeline.m_response_reference_cache ∧
      (sample_notification.type = .CONTROLLER_LIST_UPDATED → kind = .controllerListUpdated) ∧
      (sample_notification.type = .TRACKER_LIST_UPDATED → kind = .trackerListUpdated) ∧
      (sample_notification.type = .HMD_LIST_UPDATED → kind = .hmdListUpdated) ∧
      (∀ tag, sample_notification.type = .other tag → kind = .opaqueServiceEvent) ∧
      eClientPSMoveAPIEvent.controllerListUpdated ≠ eClientPSMoveAPIEvent.trackerListUpdated ∧
      eClientPSMoveAPIEvent.controllerListUpdated ≠ eClientPSMoveAPIEvent.hmdListUpdated ∧
      eClientPSMoveAPIEvent.trackerListUpdated ≠ eClientPSMoveAPIEvent.hmdListUpdated :=
  ⟨rfl, notification_classification fresh_pipeline sample_notification rfl⟩

/-! ## Lemmas: the history of a cycle -/

theorem allocate_controller_view_frame {s s1 : ClientPSMoveAPIImpl} {d : Int} {p : Nat}
    (h : allocate_controller_view s d = .ok (p, s1)) :
    s1.m_message_queue = s.m_message_queue ∧
    s1.m_response_reference_cache = s.m_response_reference_cache ∧
    s1.m_event_reference_cache = s.m_event_reference_cache := by
  unfold allocate_controller_view at h
  cases hm : map_find s.m_controller_view_map d with
  | none =>
    simp only [hm] at h
    split at h
    · cases h
    · simp only [Except.ok.injEq, Prod.mk.injEq] at h
      rw [← h.2]
      exact ⟨rfl, rfl, rfl⟩
  | some q =>
    simp only [hm] at h
    split at h
    · cases h
    · simp only [Except.ok.injEq, Prod.mk.injEq] at h
      rw [← h.2]
      exact ⟨rfl, rfl, rfl⟩

theorem free_controller_view_frame {s s1 : ClientPSMoveAPIImpl} {view : Nat}
    (h : free_controller_view s view = .ok s1) :
    s1.m_message_queue = s.m_message_queue ∧
    s1.m_response_reference_cache = s.m_response_reference_cache ∧
    s1.m_event_reference_cache = s.m_event_reference_cache := by
  unfold free_controller_view at h
  split at h
  · cases h
  · split at h
    · cases h
    · split at h
      · simp only at h
        split at h
        · cases h
        · simp only [Except.ok.injEq] at h
          rw [← h]
          exact ⟨rfl, rfl, rfl⟩
      · simp only [Except.ok.injEq] at h
        rw [← h]
        exact ⟨rfl, rfl, rfl⟩

theorem poll_next_message_frame {sz : Nat} {s : ClientPSMoveAPIImpl} {message : Option Message}
    {size : Nat} {r : Bool × Option Message × ClientPSMoveAPIImpl}
    (h : poll_next_message sz s message size = .ok r) :
    r.2.2.m_response_reference_cache = s.m_response_reference_cache ∧
    r.2.2.m_event_reference_cache = s.m_event_reference_cache ∧
    r.2.2.m_controller_view_map = s.m_controller_view_map ∧
    r.2.2.heap = s.heap ∧
    s.m_message_queue = (if r.1 then r.2.1.toList else []) ++ r.2.2.m_message_queue := by
  unfold poll_next_message at h
  cases hq : s.m_message_queue with
  | nil =>
    simp only [hq, Except.ok.injEq] at h
    rw [← h]
    simp [hq]
  | cons first rest =>
    simp only [hq] at h
    split at h
    · cases h
    · split at h
      · cases h
      · simp only [Except.ok.injEq] at h
        rw [← h]
        simp

theorem payload_retained_mono {s s1 : ClientPSMoveAPIImpl} {m : Message}
    (hr : ∀ r ∈ s.m_response_reference_cache, r ∈ s1.m_response_reference_cache)
    (he : ∀ r ∈ s.m_event_reference_cache, r ∈ s1.m_event_reference_cache)
    (h : payload_retained s m) : payload_retained s1 m := by
  cases m with
  | response id code handle =>
    cases handle with
    | none => trivial
    | some a =>
      obtain ⟨r, hmem, hr1⟩ := h
      exact ⟨r, hr r hmem, hr1⟩
  | event kind handle =>
    cases handle with
    | none => trivial
    | some a =>
      obtain ⟨r, hmem, hr1⟩ := h
      exact ⟨r, he r hmem, hr1⟩

theorem payload_retained_congr {s s1 : ClientPSMoveAPIImpl} {m : Message}
    (hr : s1.m_response_reference_cache = s.m_response_reference_cache)
    (he : s1.m_event_reference_cache = s.m_event_reference_cache)
    (h : payload_retained s m) : payload_retained s1 m :=
  payload_retained_mono (by rw [hr]; exact fun _ h => h) (by rw [he]; exact fun _ h => h) h

/-- The message of an arrival points into the caches once the arrival's payloads are
in them. -/
theorem payload_retained_new (s1 : ClientPSMoveAPIImpl) (a : Arrival) (m : Message)
    (hm : spec_message a = some m)
    (hr : ∀ r ∈ spec_response_payload a, r ∈ s1.m_response_reference_cache)
    (he : ∀ r ∈ spec_event_payload a, r ∈ s1.m_event_reference_cache) :
    payload_retained s1 m := by
  cases a with
  | data_frame f => simp [spec_message] at hm
  | notification n =>
    cases n with
    | none => simp [spec_message] at hm
    | some r =>
      simp only [spec_message, Option.some.injEq] at hm
      subst hm
      exact ⟨r, he r (by simp [spec_event_payload]), rfl⟩
  | response code id r =>
    simp only [spec_message, Option.some.injEq] at hm
    subst hm
    cases r with
    | none => trivial
    | some r => exact ⟨r, hr r (by simp [spec_response_payload]), rfl⟩
  | connection_opened =>
    simp only [spec_message, Option.some.injEq] at hm
    subst hm
    trivial
  | connection_open_failed ec =>
    simp only [spec_message, Option.some.injEq] at hm
    subst hm
    trivial
  | connection_closed =>
    simp only [spec_message, Option.some.injEq] at hm
    subst hm
    trivial
  | connection_close_failed ec => simp [spec_message] at hm
  | connection_socket_error ec => simp [spec_message] at hm

theorem Cycle.Consistent.after_deliver {c c1 : Cycle} (hc : c.Consistent) {a : Arrival}
    (h : c.deliver a = .ok c1) : c1.Consistent := by
  unfold Cycle.deliver at h
  cases hd : PSMove.deliver c.impl a with
  | error e => simp [hd] at h
  | ok s1 =>
    simp only [hd, Except.ok.injEq] at h
    subst h
    obtain ⟨hq, hr, he⟩ := deliver_ok_effect hd
    have hnew : s1.m_message_queue.drop c.impl.m_message_queue.length =
        (spec_message a).toList := by
      rw [hq]
      simp
    refine ⟨?_, ?_⟩
    · show c.polled ++ s1.m_message_queue =
        c.enqueued ++ s1.m_message_queue.drop c.impl.m_message_queue.length
      rw [hnew, hq, ← List.append_assoc, hc.1]
    · intro m hm
      have hm1 : m ∈ c.enqueued ++ s1.m_message_queue.drop c.impl.m_message_queue.length := hm
      rw [hnew] at hm1
      rcases List.mem_append.mp hm1 with hold | hnw
      · refine payload_retained_mono ?_ ?_ (hc.2 m hold)
        · intro r hmem
          show r ∈ s1.m_response_reference_cache
          rw [hr]
          exact List.mem_append_left _ hmem
        · intro r hmem
          show r ∈ s1.m_event_reference_cache
          rw [he]
          exact List.mem_append_left _ hmem
      · have hsm : spec_message a = some m := by
          cases hs : spec_message a with
          | none => simp [hs] at hnw
          | some m1 =>
            simp only [hs, Option.toList_some, List.mem_singleton] at hnw
            rw [hnw]
        refine payload_retained_new s1 a m hsm ?_ ?_
        · intro r hmem
          rw [hr]
          exact List.mem_append_right _ hmem
        · intro r hmem
          rw [he]
          exact List.mem_append_right _ hmem

theorem Cycle.Consistent.after_deliver_all (arrivals : List Arrival) :
    ∀ {c c1 : Cycle}, c.Consistent → c.deliver_all arrivals = .ok c1 → c1.Consistent := by
  induction arrivals with
  | nil =>
    intro c c1 hc h
    simp only [Cycle.deliver_all, Except.ok.injEq] at h
    rw [← h]
    exact hc
  | cons a rest ih =>
    intro c c1 hc h
    cases hd : c.deliver a with
    | error e => simp [Cycle.deliver_all, hd] at h
    | ok c2 =>
      simp only [Cycle.deliver_all, hd] at h
      exact ih (hc.after_deliver hd) h

theorem Cycle.Consistent.after_step {sz : Nat} {c c1 : Cycle} (hc : c.Consistent) {call : Call}
    (h : Cycle.step sz c call = .ok c1) : c1.Consistent := by
  cases call with
  | update arrivals =>
    have h0 : Cycle.Consistent
        { impl := clear_messages c.impl, enqueued := [], polled := [] } :=
      ⟨rfl, fun m hm => by cases hm⟩
    exact Cycle.Consistent.after_deliver_all arrivals h0 h
  | poll_next_message message size =>
    cases hp : poll_next_message sz c.impl message size with
    | error e => simp [Cycle.step, hp] at h
    | ok r =>
      simp only [Cycle.step, hp, Except.ok.injEq] at h
      subst h
      obtain ⟨hr, he, _, _, hq⟩ := poll_next_message_frame hp
      refine ⟨?_, ?_⟩
      · show (c.polled ++ (if r.1 then r.2.1.toList else [])) ++ r.2.2.m_message_queue =
          c.enqueued
        rw [List.append_assoc, ← hq, hc.1]
      · intro m hm
        exact payload_retained_congr hr he (hc.2 m hm)
  | allocate_controller_view d =>
    cases ha : allocate_controller_view c.impl d with
    | error e => simp [Cycle.step, ha] at h
    | ok r =>
      simp only [Cycle.step, ha, Except.ok.injEq] at h
      subst h
      obtain ⟨hq, hr, he⟩ := @allocate_controller_view_frame c.impl r.2 d r.1 ha
      refine ⟨?_, ?_⟩
      · show c.polled ++ r.2.m_message_queue = c.enqueued
        rw [hq, hc.1]
      · intro m hm
        exact payload_retained_congr hr he (hc.2 m hm)
  | free_controller_view view =>
    cases hf : free_controller_view c.impl view with
    | error e => simp [Cycle.step, hf] at h
    | ok s1 =>
      simp only [Cycle.step, hf, Except.ok.injEq] at h
      subst h
      obtain ⟨hq, hr, he⟩ := free_controller_view_frame hf
      refine ⟨?_, ?_⟩
      · show c.polled ++ s1.m_message_queue = c.enqueued
        rw [hq, hc.1]
      · intro m hm
        exact payload_retained_congr hr he (hc.2 m hm)
  | callback a => exact hc.after_deliver h
  | command k cmd =>
    cases hcmd : run_command k c.impl cmd with
    | error e => simp [Cycle.step, hcmd] at h
    | ok r =>
      simp only [Cycle.step, hcmd, Except.ok.injEq] at h
      subst h
      obtain ⟨_, _, hq, hr, he, _⟩ := run_command_frame hcmd
      refine ⟨?_, ?_⟩
      · show c.polled ++ r.2.m_message_queue = c.enqueued
        rw [hq, hc.1]
      · intro m hm
        exact payload_retained_congr hr he (hc.2 m hm)

theorem Cycle.Reachable.consistent {sz : Nat} {c : Cycle} (h : Cycle.Reachable sz c) :
    c.Consistent := by
  induction h with
  | create host port => exact ⟨rfl, fun m hm => by cases hm⟩
  | step call _ hstep ih => exact ih.after_step hstep

theorem Cycle.deliver_all_impl (arrivals : List Arrival) :
    ∀ c : Cycle, (c.deliver_all arrivals).map Cycle.impl =
      network_manager_update c.impl arrivals := by
  induction arrivals with
  | nil => intro c; rfl
  | cons a rest ih =>
    intro c
    cases hd : PSMove.deliver c.impl a with
    | error e => simp [Cycle.deliver_all, Cycle.deliver, network_manager_update, hd, Except.map]
    | ok s1 =>
      simp only [Cycle.deliver_all, Cycle.deliver, network_manager_update, hd]
      exact ih _

/-- The history-recording step is the step of the pipeline. -/
theorem Cycle.step_impl (sz : Nat) (c : Cycle) (call : Call) :
    (Cycle.step sz c call).map Cycle.impl = PSMove.step sz c.impl call := by
  cases call with
  | update arrivals => exact Cycle.deliver_all_impl arrivals _
  | poll_next_message message size =>
    cases hp : poll_next_message sz c.impl message size <;>
      simp [Cycle.step, PSMove.step, hp, Except.map]
  | allocate_controller_view d =>
    cases ha : allocate_controller_view c.impl d <;>
      simp [Cycle.step, PSMove.step, ha, Except.map]
  | free_controller_view view =>
    cases hf : free_controller_view c.impl view <;>
      simp [Cycle.step, PSMove.step, hf, Except.map]
  | callback a =>
    cases hd : PSMove.deliver c.impl a <;>
      simp [Cycle.step, Cycle.deliver, PSMove.step, hd, Except.map]
  | command k cmd =>
    cases hc : run_command k c.impl cmd <;>
      simp [Cycle.step, PSMove.step, hc, Except.map]

theorem Cycle.Reachable.impl {sz : Nat} {c : Cycle} (h : Cycle.Reachable sz c) :
    PSMove.Reachable sz c.impl := by
  induction h with
  | create host port => exact PSMove.Reachable.create host port
  | @step c c1 call _ hstep ih =>
    have h1 := Cycle.step_impl sz c call
    rw [hstep] at h1
    exact PSMove.Reachable.step call ih h1.symm

/-- Every reachable pipeline state is the state of a reachable cycle. -/
theorem Reachable.exists_cycle {sz : Nat} {s : ClientPSMoveAPIImpl}
    (h : PSMove.Reachable sz s) : ∃ c : Cycle, Cycle.Reachable sz c ∧ c.impl = s := by
  induction h with
  | create host port => exact ⟨_, Cycle.Reachable.create host port, rfl⟩
  | @step s s1 call _ hstep ih =>
    obtain ⟨c, hc, rfl⟩ := ih
    have h1 := Cycle.step_impl sz c call
    rw [hstep] at h1
    cases hcs : Cycle.step sz c call with
    | error e => simp [hcs, Except.map] at h1
    | ok c1 =>
      simp only [hcs, Except.map, Except.ok.injEq] at h1
      exact ⟨c1, Cycle.Reachable.step call hc hcs, h1⟩

/-- C4: in every reachable cycle of a running pipeline, the messages enqueued since
the last `update()` are those already polled followed by those still queued, and each
of them that carries a non-null handle points to a payload retained in the response
cache (Response messages) or the event cache (Event messages).  From such a state
`poll_next_message` leaves both caches as they are, every operation other than
`update()` keeps what the caches hold and at most appends to them, and `update()` and
`shutdown()` empty both. -/
theorem payload_lifetime (sz : Nat) (c : Cycle) (hr : Cycle.Reachable sz c) :
    c.polled ++ c.impl.m_message_queue = c.enqueued ∧
    (∀ m ∈ c.enqueued, payload_retained c.impl m) ∧
    (∀ message size r, poll_next_message sz c.impl message size = .ok r →
      r.2.2.m_response_reference_cache = c.impl.m_response_reference_cache ∧
      r.2.2.m_event_reference_cache = c.impl.m_event_reference_cache) ∧
    (∀ call s1, (∀ arrivals, call ≠ Call.update arrivals) → step sz c.impl call = .ok s1 →
      (∃ more, s1.m_response_reference_cache = c.impl.m_response_reference_cache ++ more) ∧
      (∃ more, s1.m_event_reference_cache = c.impl.m_event_reference_cache ++ more)) ∧
    (update c.impl [] = .ok (clear_messages c.impl) ∧
      shutdown c.impl = clear_messages c.impl ∧
      (clear_messages c.impl).m_response_reference_cache = [] ∧
      (clear_messages c.impl).m_event_reference_cache = []) := by
  have hc := hr.consistent
  refine ⟨hc.1, hc.2, ?_, ?_, ⟨rfl, rfl, rfl, rfl⟩⟩
  · intro message size r hp
    obtain ⟨h1, h2, _⟩ := poll_next_message_frame hp
    exact ⟨h1, h2⟩
  · intro call s1 hne hstep
    cases call with
    | update arrivals => exact absurd rfl (hne arrivals)
    | poll_next_message message size =>
      cases hp : poll_next_message sz c.impl message size with
      | error e => simp [step, hp] at hstep
      | ok r =>
        simp only [step, hp, Except.ok.injEq] at hstep
        obtain ⟨h1, h2, _⟩ := poll_next_message_frame hp
        rw [← hstep]
        exact ⟨⟨[], by simp [h1]⟩, ⟨[], by simp [h2]⟩⟩
    | allocate_controller_view d =>
      cases ha : allocate_controller_view c.impl d with
      | error e => simp [step, ha] at hstep
      | ok r =>
        simp only [step, ha, Except.ok.injEq] at hstep
        obtain ⟨_, h1, h2⟩ := @allocate_controller_view_frame c.impl r.2 d r.1 ha
        rw [← hstep]
        exact ⟨⟨[], by simp [h1]⟩, ⟨[], by simp [h2]⟩⟩
    | free_controller_view view =>
      obtain ⟨_, h1, h2⟩ := free_controller_view_frame hstep
      exact ⟨⟨[], by simp [h1]⟩, ⟨[], by simp [h2]⟩⟩
    | callback a =>
      obtain ⟨_, h1, h2⟩ := deliver_ok_effect hstep
      exact ⟨⟨_, h1⟩, ⟨_, h2⟩⟩
    | command k cmd =>
      cases hcmd : run_command k c.impl cmd with
      | error e => simp [step, hcmd] at hstep
      | ok r =>
        simp only [step, hcmd, Except.ok.injEq] at hstep
        obtain ⟨_, _, _, h1, h2, _⟩ := run_command_frame hcmd
        rw [← hstep]
        exact ⟨⟨[], by simp [h1]⟩, ⟨[], by simp [h2]⟩⟩

/-- Witness of C4: after `update()` delivered one resolved response and the message
was polled, its handle still points into the response cache. -/
theorem payload_lifetime_witness :
    cycle_after_poll.polled ++ cycle_after_poll.impl.m_message_queue =
      cycle_after_poll.enqueued ∧
    (∀ m ∈ cycle_after_poll.enqueued, payload_retained cycle_after_poll.impl m) :=
  ⟨(payload_lifetime 16 cycle_after_poll
      (Cycle.Reachable.step (Call.poll_next_message (some (Message.event .opaqueServiceEvent none)) 16)
        (Cycle.Reachable.step (Call.update [Arrival.response 0 1 (some sample_response)])
          (Cycle.Reachable.create "localhost" "9512") rfl) rfl)).1,
   (payload_lifetime 16 cycle_after_poll
      (Cycle.Reachable.step (Call.poll_next_message (some (Message.event .opaqueServiceEvent none)) 16)
        (Cycle.Reachable.step (Call.update [Arrival.response 0 1 (some sample_response)])
          (Cycle.Reachable.create "localhost" "9512") rfl) rfl)).2.1⟩

/-! ## Connection events and data frames -/

/-- C11: the connection-opened, open-failed and closed callbacks each append exactly
one Event message, of kind connectedToService, failedToConnectToService and
disconnectedFromService respectively, with a null handle, and leave both caches as
they are; the close-failed and socket-error callbacks return the state unchanged.
Hence an `update()` whose only arrival is an open-failed callback is followed by one
poll returning Event failedToConnectToService and a second poll returning false. -/
theorem connection_event_classification (sz : Nat) (s : ClientPSMoveAPIImpl) (ec : Int)
    (buffer : Message) :
    ((handle_server_connection_opened s).m_message_queue =
        s.m_message_queue ++ [Message.event .connectedToService none] ∧
      (handle_server_connection_opened s).m_response_reference_cache =
        s.m_response_reference_cache ∧
      (handle_server_connection_opened s).m_event_reference_cache =
        s.m_event_reference_cache) ∧
    ((handle_server_connection_open_failed s ec).m_message_queue =
        s.m_message_queue ++ [Message.event .failedToConnectToService none] ∧
      (handle_server_connection_open_failed s ec).m_response_reference_cache =
        s.m_response_reference_cache ∧
      (handle_server_connection_open_failed s ec).m_event_reference_cache =
        s.m_event_reference_cache) ∧
    ((handle_server_connection_closed s).m_message_queue =
        s.m_message_queue ++ [Message.event .disconnectedFromService none] ∧
      (handle_server_connection_closed s).m_response_reference_cache =
        s.m_response_reference_cache ∧
      (handle_server_connection_closed s).m_event_reference_cache =
        s.m_event_reference_cache) ∧
    handle_server_connection_close_failed s ec = s ∧
    handle_server_connection_socket_error s ec = s ∧
    ∃ s1 s2, update s [Arrival.connection_open_failed ec] = .ok s1 ∧
      s1.m_message_queue = [Message.event .failedToConnectToService none] ∧
      poll_next_message sz s1 (some buffer) sz =
        .ok (true, some (Message.event .failedToConnectToService none), s2) ∧
      poll_next_message sz s2 (some (Message.event .failedToConnectToService none)) sz =
        .ok (false, some (Message.event .failedToConnectToService none), s2) := by
  refine ⟨⟨rfl, rfl, rfl⟩, ⟨rfl, rfl, rfl⟩, ⟨rfl, rfl, rfl⟩, rfl, rfl, ?_⟩
  refine ⟨_, _, rfl, rfl, poll_next_message_nonempty sz _ buffer _ [] rfl, ?_⟩
  exact poll_next_message_empty sz _ _ sz rfl

/-- C12: on every reachable state, a data frame whose device id D is registered is
accepted; the frame is applied to the view registered for D (its state becomes the
frame, its id and listener count stay), every other view object and every other
registry entry is as before, and the registry map, the message queue, both caches
and the request manager are exactly as they were. -/
theorem data_frame_bypass (sz : Nat) (s : ClientPSMoveAPIImpl) (hr : Reachable sz s)
    (f : ControllerDataFrame) (hreg : is_registered s f.controller_id = true) :
    ∃ view v s1, map_find s.m_controller_view_map f.controller_id = some view ∧
      s.heap.read view = some v ∧
      handle_data_frame s f = .ok s1 ∧
      s1.heap.read view = some { v with state := some f } ∧
      registered_view s1 f.controller_id = some { v with state := some f } ∧
      (∀ p, p ≠ view → s1.heap.read p = s.heap.read p) ∧
      (∀ d, d ≠ f.controller_id → registered_view s1 d = registered_view s d) ∧
      s1.m_controller_view_map = s.m_controller_view_map ∧
      s1.m_message_queue = s.m_message_queue ∧
      s1.m_response_reference_cache = s.m_response_reference_cache ∧
      s1.m_event_reference_cache = s.m_event_reference_cache ∧
      s1.m_request_manager = s.m_request_manager := by
  have wf := hr.wellFormed
  unfold is_registered at hreg
  cases hm : map_find s.m_controller_view_map f.controller_id with
  | none => simp [hm] at hreg
  | some view =>
    obtain ⟨v, hv, _, _⟩ := wf.entry_live _ view hm
    have hrun : handle_data_frame s f =
        .ok { s with heap := s.heap.write view (v.ApplyControllerDataFrame f) } := by
      simp [handle_data_frame, hm, hv]
    refine ⟨view, v, _, rfl, hv, hrun, ?_, ?_, ?_, ?_, rfl, rfl, rfl, rfl, rfl⟩
    · simp [ViewHeap.read_write, hv, ClientControllerView.ApplyControllerDataFrame]
    · simp [registered_view, hm, ViewHeap.read_write, hv,
        ClientControllerView.ApplyControllerDataFrame]
    · intro p hp
      simp [ViewHeap.read_write, hp]
    · intro d hd
      simp only [registered_view]
      cases hm1 : map_find s.m_controller_view_map d with
      | none => rfl
      | some q =>
        have hne : q ≠ view := by
          intro e
          subst e
          exact hd (wf.ptr_inj hm1 hm)
        simp [ViewHeap.read_write, hne]

/-- Witness of C12: a data frame for device 7 on the pipeline that holds a view for
device 7. -/
theorem data_frame_bypass_witness :
    ∃ view v s1, map_find pipeline_with_view7.m_controller_view_map 7 = some view ∧
      pipeline_with_view7.heap.read view = some v ∧
      handle_data_frame pipeline_with_view7 { controller_id := 7, payload := 42 } = .ok s1 ∧
      s1.heap.read view = some { v with state := some { controller_id := 7, payload := 42 } } ∧
      registered_view s1 7 =
        some { v with state := some { controller_id := 7, payload := 42 } } ∧
      (∀ p, p ≠ view → s1.heap.read p = pipeline_with_view7.heap.read p) ∧
      (∀ d, d ≠ 7 → registered_view s1 d = registered_view pipeline_with_view7 d) ∧
      s1.m_controller_view_map = pipeline_with_view7.m_controller_view_map ∧
      s1.m_message_queue = pipeline_with_view7.m_message_queue ∧
      s1.m_response_reference_cache = pipeline_with_view7.m_response_reference_cache ∧
      s1.m_event_reference_cache = pipeline_with_view7.m_event_reference_cache ∧
      s1.m_request_manager = pipeline_with_view7.m_request_manager :=
  data_frame_bypass 16 pipeline_with_view7
    (Reachable.step (Call.allocate_controller_view 7)
      (Reachable.create "localhost" "9512") rfl)
    { controller_id := 7, payload := 42 } (by decide)

/-- C13: in every pipeline state, a data frame whose device id is not in the registry
is accepted without fault and the whole state (registry, views, message queue, both
caches) is returned unchanged. -/
theorem unknown_device_frame_discarded (s : ClientPSMoveAPIImpl) (f : ControllerDataFrame)
    (h : is_registered s f.controller_id = false) :
    handle_data_frame s f = .ok s := by
  unfold is_registered at h
  cases hm : map_find s.m_controller_view_map f.controller_id with
  | none => simp [handle_data_frame, hm]
  | some p => simp [hm] at h

/-- Witness of C13: a data frame for device 3 on the pipeline that only holds a view
for device 7. -/
theorem unknown_device_frame_discarded_witness :
    is_registered pipeline_with_view7 3 = false ∧
    handle_data_frame pipeline_with_view7 { controller_id := 3, payload := 42 } =
      .ok pipeline_with_view7 :=
  ⟨by decide,
    unknown_device_frame_discarded pipeline_with_view7 { controller_id := 3, payload := 42 }
      (by decide)⟩

/-! ## The public interface -/

theorem ClientPSMoveAPI.not_started_eq {api : ClientPSMoveAPI}
    (h : api.has_started = false) : api.m_implementation_ptr = none := by
  unfold ClientPSMoveAPI.has_started at h
  cases hp : api.m_implementation_ptr with
  | none => rfl
  | some s => simp [hp] at h

theorem ClientPSMoveAPI.started_eq {api : ClientPSMoveAPI}
    (h : api.has_started = true) : ∃ s, api = { m_implementation_ptr := some s } := by
  cases api with
  | mk ptr =>
    cases ptr with
    | none => simp [ClientPSMoveAPI.has_started] at h
    | some s => exact ⟨s, rfl⟩

theorem ClientPSMoveAPI.forward_not_started (INVALID_REQUEST_ID : t_request_id)
    {api : ClientPSMoveAPI} (h : api.has_started = false)
    (method : ClientPSMoveAPIImpl → Except Fault (t_request_id × ClientPSMoveAPIImpl)) :
    api.forward INVALID_REQUEST_ID method = .ok (INVALID_REQUEST_ID, api) := by
  simp [ClientPSMoveAPI.forward, ClientPSMoveAPI.not_started_eq h]

/-- C14: `poll_next_message` on an empty queue returns false, whatever buffer and size
it is given, and leaves the buffer and the whole pipeline state unchanged; on a
non-empty queue, given a buffer of the right size, it returns true, the buffer then
holds the front message, and the state differs only in that this one message is gone
from the queue.  The public `ClientPSMoveAPI::poll_next_message` on a started pipeline
does the same. -/
theorem poll_next_message_contract (sz : Nat) (s : ClientPSMoveAPIImpl) :
    (s.m_message_queue = [] → ∀ (message : Option Message) (message_size : Nat),
      poll_next_message sz s message message_size = .ok (false, message, s) ∧
      ClientPSMoveAPI.poll_next_message sz { m_implementation_ptr := some s } message
          message_size =
        .ok (false, message, { m_implementation_ptr := some s })) ∧
    (∀ first rest, s.m_message_queue = first :: rest → ∀ buffer : Message,
      poll_next_message sz s (some buffer) sz =
        .ok (true, some first, { s with m_message_queue := rest }) ∧
      ClientPSMoveAPI.poll_next_message sz { m_implementation_ptr := some s } (some buffer)
          sz =
        .ok (true, some first,
          { m_implementation_ptr := some { s with m_message_queue := rest } })) := by
  refine ⟨?_, ?_⟩
  · intro hq message message_size
    have h := poll_next_message_empty sz s message message_size hq
    exact ⟨h, by simp [ClientPSMoveAPI.poll_next_message, h]⟩
  · intro first rest hq buffer
    have h := poll_next_message_nonempty sz s buffer first rest hq
    exact ⟨h, by simp [ClientPSMoveAPI.poll_next_message, h]⟩

/-- Witness of C14: polling the pipeline that holds one unread connection event. -/
theorem poll_next_message_contract_witness :
    poll_next_message 16 pipeline_with_unread_event
        (some (Message.event .opaqueServiceEvent none)) 16 =
      .ok (true, some (Message.event .connectedToService none),
        { pipeline_with_unread_event with m_message_queue := [] }) ∧
    ClientPSMoveAPI.poll_next_message 16
        { m_implementation_ptr := some pipeline_with_unread_event }
        (some (Message.event .opaqueServiceEvent none)) 16 =
      .ok (true, some (Message.event .connectedToService none),
        { m_implementation_ptr :=
            some { pipeline_with_unread_event with m_message_queue := [] } }) :=
  (poll_next_message_contract 16 pipeline_with_unread_event).2
    (Message.event .connectedToService none) [] rfl (Message.event .opaqueServiceEvent none)

/-- C15: whenever the pipeline is not running, each of `start_controller_data_stream`,
`stop_controller_data_stream`, `set_controller_rumble`, `set_led_color`, `reset_pose`
and `send_opaque_request` returns `INVALID_REQUEST_ID` for every argument,
`poll_next_message` returns false with the buffer untouched, and each of them returns
without fault and leaves the state as it was; the state after `shutdown()` is such a
state. -/
theorem not_running_sentinel (INVALID_REQUEST_ID : t_request_id) (sz : Nat)
    (api : ClientPSMoveAPI) (h : api.has_started = false) :
    (∀ includeRawSensorData view flags,
      api.start_controller_data_stream INVALID_REQUEST_ID includeRawSensorData view flags =
        .ok (INVALID_REQUEST_ID, api)) ∧
    (∀ view, api.stop_controller_data_stream INVALID_REQUEST_ID view =
      .ok (INVALID_REQUEST_ID, api)) ∧
    (∀ view rumble, api.set_controller_rumble INVALID_REQUEST_ID view rumble =
      .ok (INVALID_REQUEST_ID, api)) ∧
    (∀ view r g b, api.set_led_color INVALID_REQUEST_ID view r g b =
      .ok (INVALID_REQUEST_ID, api)) ∧
    (∀ view, api.reset_pose INVALID_REQUEST_ID view = .ok (INVALID_REQUEST_ID, api)) ∧
    (∀ request_handle, api.send_opaque_request INVALID_REQUEST_ID request_handle =
      .ok (INVALID_REQUEST_ID, api)) ∧
    (∀ message message_size,
      api.poll_next_message sz message message_size = .ok (false, message, api)) ∧
    (∀ api0 : ClientPSMoveAPI, api0.shutdown.has_started = false) := by
  refine ⟨?_, ?_, ?_, ?_, ?_, ?_, ?_, ?_⟩
  · intro k view flags
    exact ClientPSMoveAPI.forward_not_started INVALID_REQUEST_ID h _
  · intro view
    exact ClientPSMoveAPI.forward_not_started INVALID_REQUEST_ID h _
  · intro view rumble
    exact ClientPSMoveAPI.forward_not_started INVALID_REQUEST_ID h _
  · intro view r g b
    exact ClientPSMoveAPI.forward_not_started INVALID_REQUEST_ID h _
  · intro view
    exact ClientPSMoveAPI.forward_not_started INVALID_REQUEST_ID h _
  · intro request_handle
    exact ClientPSMoveAPI.forward_not_started INVALID_REQUEST_ID h _
  · intro message message_size
    simp [ClientPSMoveAPI.poll_next_message, ClientPSMoveAPI.not_started_eq h]
  · intro api0
    cases api0 with
    | mk ptr => cases ptr <;> rfl

/-- Witness of C15: the commands and the poll before `startup()`. -/
theorem not_running_sentinel_witness :
    ClientPSMoveAPI.initial.has_started = false ∧
    ClientPSMoveAPI.initial.set_led_color (-1) 0 10 20 30 = .ok (-1, ClientPSMoveAPI.initial) ∧
    ClientPSMoveAPI.initial.poll_next_message 16 (some (Message.event .opaqueServiceEvent none))
        16 =
      .ok (false, some (Message.event .opaqueServiceEvent none), ClientPSMoveAPI.initial) :=
  ⟨rfl, (not_running_sentinel (-1) 16 ClientPSMoveAPI.initial rfl).2.2.2.1 0 10 20 30,
    (not_running_sentinel (-1) 16 ClientPSMoveAPI.initial rfl).2.2.2.2.2.2.1
      (some (Message.event .opaqueServiceEvent none)) 16⟩

/-- C16: for every host, port, log level and network outcome, `ClientPSMoveAPI::startup`
on an already started pipeline returns true and leaves the whole state (the existing
pipeline with its connection target, registry, queue and caches) unchanged: no second
pipeline is constructed and no connection is attempted. -/
theorem startup_idempotent (api : ClientPSMoveAPI) (h : api.has_started = true)
    (host port : String) (log_level : Nat) (connects : Bool) :
    api.startup host port log_level connects = (true, api) := by
  obtain ⟨s, rfl⟩ := ClientPSMoveAPI.started_eq h
  rfl

/-- Witness of C16: a second `startup` with another target on a started pipeline. -/
theorem startup_idempotent_witness :
    ClientPSMoveAPI.startup { m_implementation_ptr := some pipeline_with_view7 }
        "otherhost" "9999" 3 false =
      (true, { m_implementation_ptr := some pipeline_with_view7 }) :=
  startup_idempotent { m_implementation_ptr := some pipeline_with_view7 } rfl
    "otherhost" "9999" 3 false

/-- C17: `ClientPSMoveAPI::shutdown` never faults.  When the pipeline is not started
it changes nothing; when it is started, the pipeline's `shutdown` leaves the message
queue and both payload caches empty and the pipeline is then released; in both cases
`has_started()` is false afterwards, and a second `shutdown` yields the same state as
the first. -/
theorem shutdown_idempotent_total (api : ClientPSMoveAPI) :
    (api.has_started = false → api.shutdown = api) ∧
    (∀ s, api.m_implementation_ptr = some s →
      (shutdown s).m_message_queue = [] ∧
      (shutdown s).m_response_reference_cache = [] ∧
      (shutdown s).m_event_reference_cache = [] ∧
      api.shutdown = delete_implementation (shutdown s) ∧
      api.shutdown = { m_implementation_ptr := none }) ∧
    api.shutdown.has_started = false ∧
    api.shutdown.shutdown = api.shutdown := by
  cases api with
  | mk ptr =>
    cases ptr with
    | none =>
      refine ⟨fun _ => rfl, ?_, rfl, rfl⟩
      intro s hs
      cases hs
    | some s0 =>
      refine ⟨?_, ?_, rfl, rfl⟩
      · intro h
        simp [ClientPSMoveAPI.has_started] at h
      · intro s hs
        simp only [Option.some.injEq] at hs
        subst hs
        exact ⟨rfl, rfl, rfl, rfl, rfl⟩

/-- Witness of C17: shutting down the pipeline that holds one unread event. -/
theorem shutdown_idempotent_total_witness :
    (shutdown pipeline_with_unread_event).m_message_queue = [] ∧
    (shutdown pipeline_with_unread_event).m_response_reference_cache = [] ∧
    (shutdown pipeline_with_unread_event).m_event_reference_cache = [] ∧
    ClientPSMoveAPI.shutdown { m_implementation_ptr := some pipeline_with_unread_event } =
      delete_implementation (shutdown pipeline_with_unread_event) ∧
    ClientPSMoveAPI.shutdown { m_implementation_ptr := some pipeline_with_unread_event } =
      { m_implementation_ptr := none } :=
  (shutdown_idempotent_total
    { m_implementation_ptr := some pipeline_with_unread_event }).2.1
    pipeline_with_unread_event rfl

/-- C20: when `ClientPSMoveAPI::startup` is called while not started and the network
manager's startup fails, it returns false, yet the pipeline it constructed stays
installed (exactly one connection attempt was made) and `has_started()` is true.
Every startup call on a started pipeline returns true and changes nothing, so no
further connection is attempted; update, poll and the commands keep the pipeline
installed; only after `shutdown()` is `has_started()` false again, and the next
startup constructs a new pipeline and makes a new attempt. -/
theorem failed_startup_leaves_pipeline (api : ClientPSMoveAPI)
    (h : api.has_started = false) (host port : String) (log_level : Nat) :
    ∃ s1, api.startup host port log_level false =
        (false, { m_implementation_ptr := some s1 }) ∧
      s1.m_network_manager.startup_calls = 1 ∧
      ClientPSMoveAPI.has_started { m_implementation_ptr := some s1 } = true ∧
      (∀ (later : ClientPSMoveAPI), later.has_started = true →
        ∀ host1 port1 log_level1 connects1,
          later.startup host1 port1 log_level1 connects1 = (true, later)) ∧
      (∀ (later : ClientPSMoveAPI), later.has_started = true →
        (∀ arrivals after, later.update arrivals = .ok after → after.has_started = true) ∧
        (∀ sz message size r, later.poll_next_message sz message size = .ok r →
          r.2.2.has_started = true) ∧
        (∀ invalid method r, later.forward invalid method = .ok r →
          r.2.has_started = true)) ∧
      (ClientPSMoveAPI.shutdown { m_implementation_ptr := some s1 }).has_started = false ∧
      (∀ host1 port1 log_level1 connects1, ∃ s2,
        (ClientPSMoveAPI.shutdown { m_implementation_ptr := some s1 }).startup
            host1 port1 log_level1 connects1 =
          (connects1, { m_implementation_ptr := some s2 }) ∧
        s2.m_network_manager.startup_calls = 1) := by
  have hp := ClientPSMoveAPI.not_started_eq h
  refine ⟨(PSMove.startup (ClientPSMoveAPIImpl.create host port) log_level false).2,
    ?_, ?_, rfl, ?_, ?_, rfl, ?_⟩
  · simp only [ClientPSMoveAPI.startup, hp]
    rfl
  · rfl
  · intro later hl host1 port1 lvl1 c1
    obtain ⟨s, rfl⟩ := ClientPSMoveAPI.started_eq hl
    rfl
  · intro later hl
    obtain ⟨s, rfl⟩ := ClientPSMoveAPI.started_eq hl
    refine ⟨?_, ?_, ?_⟩
    · intro arrivals after hu
      simp only [ClientPSMoveAPI.update] at hu
      split at hu
      · simp only [Except.ok.injEq] at hu
        rw [← hu]
        rfl
      · cases hu
    · intro sz message size r hpoll
      simp only [ClientPSMoveAPI.poll_next_message] at hpoll
      split at hpoll
      · simp only [Except.ok.injEq] at hpoll
        rw [← hpoll]
        rfl
      · cases hpoll
    · intro invalid method r hf
      simp only [ClientPSMoveAPI.forward] at hf
      split at hf
      · simp only [Except.ok.injEq] at hf
        rw [← hf]
        rfl
      · cases hf
  · intro host1 port1 lvl1 c1
    refine ⟨(PSMove.startup (ClientPSMoveAPIImpl.create host1 port1) lvl1 c1).2, ?_, rfl⟩
    simp only [ClientPSMoveAPI.shutdown, delete_implementation, ClientPSMoveAPI.startup,
      PSMove.startup, ClientNetworkManager.startup]
    cases c1 <;> rfl

/-- Witness of C20: a failed first `startup` from the initial state. -/
theorem failed_startup_leaves_pipeline_witness :
    ClientPSMoveAPI.initial.has_started = false ∧
    (ClientPSMoveAPI.initial.startup "localhost" "9512" 0 false).1 = false ∧
    (ClientPSMoveAPI.initial.startup "localhost" "9512" 0 false).2.has_started = true ∧
    ((ClientPSMoveAPI.initial.startup "localhost" "9512" 0 false).2.startup
        "localhost" "9512" 0 true) =
      (true, (ClientPSMoveAPI.initial.startup "localhost" "9512" 0 false).2) := by
  obtain ⟨s1, h1, _, h3, h4, _⟩ :=
    failed_startup_leaves_pipeline ClientPSMoveAPI.initial rfl "localhost" "9512" 0
  rw [h1]
  exact ⟨rfl, rfl, h3, h4 _ h3 _ _ _ _⟩

/-! ## Commands on view handles -/

/-- The three command methods without a registered-entry assertion accept any live
view: they hand one more request to the transport and return. -/
theorem unchecked_commands_accept_live_view (k : Nat) (s : ClientPSMoveAPIImpl) (view : Nat)
    (v : ClientControllerView) (flags : Nat) (hv : s.heap.read view = some v) :
    (∃ r, start_controller_data_stream k s view flags = .ok r ∧
      (sent_requests r.2).length = (sent_requests s).length + 1) ∧
    (∃ r, stop_controller_data_stream s view = .ok r ∧
      (sent_requests r.2).length = (sent_requests s).length + 1) ∧
    (∃ r, reset_pose s view = .ok r ∧
      (sent_requests r.2).length = (sent_requests s).length + 1) := by
  refine ⟨?_, ?_, ?_⟩
  · simp only [start_controller_data_stream, hv]
    exact ⟨_, rfl, by simp [sent_requests, send_and_return_id,
      ClientRequestManager.send_request]⟩
  · simp only [stop_controller_data_stream, hv]
    exact ⟨_, rfl, by simp [sent_requests, send_and_return_id,
      ClientRequestManager.send_request]⟩
  · simp only [reset_pose, hv]
    exact ⟨_, rfl, by simp [sent_requests, send_and_return_id,
      ClientRequestManager.send_request]⟩

/-- The three methods with a registered-entry assertion stop at it when the view is
live and its device id has no registry entry. -/
theorem checked_operations_reject_untracked_view (s : ClientPSMoveAPIImpl) (view : Nat)
    (v : ClientControllerView) (hv : s.heap.read view = some v)
    (hm : map_find s.m_controller_view_map v.ControllerID = none) :
    free_controller_view s view = .error .assertion_failed ∧
    (∀ rumble, set_controller_rumble s view rumble = .error .assertion_failed) ∧
    (∀ r g b, set_led_color s view r g b = .error .assertion_failed) := by
  refine ⟨?_, ?_, ?_⟩
  · simp [free_controller_view, hv, hm]
  · intro rumble
    simp [set_controller_rumble, hv, hm]
  · intro r g b
    simp [set_led_color, hv, hm]

/-- C18, evaluated at a live view for device 7 that the registry does not track:
`free_controller_view`, `set_controller_rumble` and `set_led_color` stop at their
registered-entry assertion, whereas `start_controller_data_stream`,
`stop_controller_data_stream` and `reset_pose`, which have no such assertion, return
request id 1 and hand a request to the transport. -/
theorem untracked_view_commands_sent :
    view_device_registered pipeline_with_untracked_view 0 = false ∧
    free_controller_view pipeline_with_untracked_view 0 = .error .assertion_failed ∧
    set_controller_rumble pipeline_with_untracked_view 0 128 = .error .assertion_failed ∧
    set_led_color pipeline_with_untracked_view 0 10 20 30 = .error .assertion_failed ∧
    (∃ s1, start_controller_data_stream 1 pipeline_with_untracked_view 0 0 = .ok (1, s1) ∧
      sent_requests s1 = [start_request_device7]) ∧
    (∃ s1, stop_controller_data_stream pipeline_with_untracked_view 0 = .ok (1, s1) ∧
      (sent_requests s1).length = 1) ∧
    (∃ s1, reset_pose pipeline_with_untracked_view 0 = .ok (1, s1) ∧
      (sent_requests s1).length = 1) :=
  ⟨rfl, rfl, rfl, rfl, ⟨_, rfl, rfl⟩, ⟨_, rfl, rfl⟩, ⟨_, rfl, rfl⟩⟩

/-- The red and green components written by `set_led_color` are the arguments, and
bytes. -/
theorem static_cast_int_of_uchar_range (x : Fin 256) :
    static_cast_int_of_uchar x = (x.val : Int) ∧
    0 ≤ static_cast_int_of_uchar x ∧ static_cast_int_of_uchar x ≤ 255 := by
  have h := x.isLt
  refine ⟨rfl, ?_, ?_⟩
  · simp [static_cast_int_of_uchar]
  · simp only [static_cast_int_of_uchar]
    omega

/-- What `set_led_color` sends for a registered view: the request carries the view's
device id, the red and green arguments, and the blue argument converted from
`unsigned` to `int`. -/
theorem set_led_color_request_sent (s : ClientPSMoveAPIImpl) (view : Nat)
    (v : ClientControllerView) (entry : Nat) (r g : Fin 256) (b : Fin 4294967296)
    (hv : s.heap.read view = some v)
    (hm : map_find s.m_controller_view_map v.ControllerID = some entry) :
    ∃ s1, set_led_color s view r g b = .ok (s.m_request_manager.next_request_id, s1) ∧
      sent_requests s1 = sent_requests s ++
        [{ Request.create .SET_LED_COLOR with
            request_id := s.m_request_manager.next_request_id
            set_led_color_request := some
              { controller_id := v.ControllerID
                r := (r.val : Int)
                g := (g.val : Int)
                b := static_cast_int_of_unsigned b } }] := by
  refine ⟨_, by simp only [set_led_color, hv, hm]; rfl, ?_⟩
  rfl

/-- C19, evaluated at `set_led_color(view7, 10, 20, 256)`, a call the signature
`unsigned char r, unsigned char g, unsigned b` accepts: it returns request id 1 and
the `SET_LED_COLOR` request carries r = 10, g = 20 and b = 256, which is not within
0..255; with b = 4294967295 the value written is -1.  The public function forwards
the same call unchanged. -/
theorem set_led_color_blue_exceeds_byte :
    (∃ s1, set_led_color pipeline_with_view7 0 10 20 256 = .ok (1, s1) ∧
      sent_requests s1 = [led_request_blue_256]) ∧
    led_request_blue_256.set_led_color_request =
      some { controller_id := 7, r := 10, g := 20, b := 256 } ∧
    ¬ ((256 : Int) ≤ 255) ∧
    static_cast_int_of_unsigned 4294967295 = -1 ∧
    (∃ api1, ClientPSMoveAPI.set_led_color (-1)
        { m_implementation_ptr := some pipeline_with_view7 } 0 10 20 256 = .ok (1, api1) ∧
      api1.m_implementation_ptr.map sent_requests = some [led_request_blue_256]) :=
  ⟨⟨_, rfl, rfl⟩, rfl, by decide, by decide, ⟨_, rfl, rfl⟩⟩

/-! ## The registry changes only through allocate and free -/

theorem handle_data_frame_listener_count {s s1 : ClientPSMoveAPIImpl}
    {f : ControllerDataFrame} (h : handle_data_frame s f = .ok s1) (d : Int) :
    listener_count s1 d = listener_count s d := by
  unfold handle_data_frame at h
  cases hm : map_find s.m_controller_view_map f.controller_id with
  | none =>
    simp only [hm, Except.ok.injEq] at h
    rw [← h]
  | some view =>
    cases hv : s.heap.read view with
    | none => simp [hm, hv] at h
    | some v =>
      simp only [hm, hv, Except.ok.injEq] at h
      subst h
      simp only [listener_count]
      cases hm1 : map_find s.m_controller_view_map d with
      | none => rfl
      | some p =>
        by_cases hp : p = view
        · subst hp
          simp [ViewHeap.read_write, hv, ClientControllerView.ApplyControllerDataFrame]
        · simp [ViewHeap.read_write, hp]

/-- A callback that returned left the registry map and every listener count as they
were. -/
theorem deliver_registry_frame {s s1 : ClientPSMoveAPIImpl} {a : Arrival}
    (h : deliver s a = .ok s1) :
    s1.m_controller_view_map = s.m_controller_view_map ∧
    ∀ d, listener_count s1 d = listener_count s d := by
  have same : ∀ s2 : ClientPSMoveAPIImpl,
      s2.m_controller_view_map = s.m_controller_view_map → s2.heap = s.heap →
      s2.m_controller_view_map = s.m_controller_view_map ∧
      ∀ d, listener_count s2 d = listener_count s d := by
    intro s2 hm hh
    refine ⟨hm, ?_⟩
    intro d
    simp only [listener_count, hm, hh]
  cases a with
  | data_frame f =>
    exact ⟨(handle_data_frame_frame h).2.2.2, handle_data_frame_listener_count h⟩
  | notification n =>
    cases n with
    | none => simp [deliver, handle_notification] at h
    | some r =>
      by_cases hid : r.request_id = -1
      · rw [deliver, handle_notification_ok s r hid] at h
        simp only [Except.ok.injEq] at h
        rw [← h]
        exact same _ (enqueue_event_message_registry _ _ _).1
          (enqueue_event_message_registry _ _ _).2
      · simp [deliver, handle_notification, hid] at h
  | response code id r =>
    simp only [deliver, Except.ok.injEq] at h
    rw [← h]
    exact same _ (enqueue_response_message_registry _ _ _ _).1
      (enqueue_response_message_registry _ _ _ _).2
  | connection_opened =>
    simp only [deliver, Except.ok.injEq] at h
    rw [← h]
    exact same _ rfl rfl
  | connection_open_failed ec =>
    simp only [deliver, Except.ok.injEq] at h
    rw [← h]
    exact same _ rfl rfl
  | connection_closed =>
    simp only [deliver, Except.ok.injEq] at h
    rw [← h]
    exact same _ rfl rfl
  | connection_close_failed ec =>
    simp only [deliver, Except.ok.injEq] at h
    rw [← h]
    exact same _ rfl rfl
  | connection_socket_error ec =>
    simp only [deliver, Except.ok.injEq] at h
    rw [← h]
    exact same _ rfl rfl

theorem network_manager_update_registry_frame (arrivals : List Arrival) :
    ∀ {s s1 : ClientPSMoveAPIImpl}, network_manager_update s arrivals = .ok s1 →
      s1.m_controller_view_map = s.m_controller_view_map ∧
      ∀ d, listener_count s1 d = listener_count s d := by
  induction arrivals with
  | nil =>
    intro s s1 h
    simp only [network_manager_update, Except.ok.injEq] at h
    rw [← h]
    exact ⟨rfl, fun _ => rfl⟩
  | cons a rest ih =>
    intro s s1 h
    cases hd : deliver s a with
    | error e => simp [network_manager_update, hd] at h
    | ok s2 =>
      simp only [network_manager_update, hd] at h
      obtain ⟨hm2, hc2⟩ := deliver_registry_frame hd
      obtain ⟨hm1, hc1⟩ := ih h
      exact ⟨hm1.trans hm2, fun d => (hc1 d).trans (hc2 d)⟩

theorem map_find_allocate_other {s s1 : ClientPSMoveAPIImpl} (wf : WellFormed s) {d : Int}
    {p : Nat} (h : allocate_controller_view s d = .ok (p, s1)) {d1 : Int} (hd : d1 ≠ d) :
    map_find s1.m_controller_view_map d1 = map_find s.m_controller_view_map d1 := by
  cases hm : map_find s.m_controller_view_map d with
  | none =>
    rw [allocate_unregistered s d hm] at h
    cases h
    simp [map_find_insert _ _ _ hm, hd]
  | some q =>
    obtain ⟨v, hv, _, _⟩ := wf.entry_live d q hm
    rw [allocate_registered s d q v hm hv] at h
    cases h
    rfl

theorem map_find_free_other {s s1 : ClientPSMoveAPIImpl} (wf : WellFormed s) {d : Int}
    {view : Nat} (hm : map_find s.m_controller_view_map d = some view)
    (h : free_controller_view s view = .ok s1) {d1 : Int} (hd : d1 ≠ d) :
    map_find s1.m_controller_view_map d1 = map_find s.m_controller_view_map d1 := by
  obtain ⟨v, hv, hvd, _⟩ := wf.entry_live d view hm
  have hm1 := wf.no_leak view v hv
  by_cases hc : v.ListenerCount ≤ 1
  · rw [free_last s view v hv hm1 hc] at h
    cases h
    simp [map_find_erase _ _ wf.keys_nodup, hvd, hd]
  · have hc1 : 1 < v.ListenerCount := by omega
    rw [free_more s view v hv view hm1 hc1] at h
    cases h
    rfl

/-- C21: on every reachable state, `update()` with any arrivals (data frames,
notifications, responses, connection events), `poll_next_message` and the two enqueue
operations leave the registry map, hence the set of registered ids, and every
listener count unchanged; `update()` returns for every round of well-formed arrivals.
`allocate_controller_view(d)` and `free_controller_view` of the view registered for d
return and leave the entry and the view of every other id, the message queue and both
caches unchanged. -/
theorem registry_changed_only_by_allocate_free (sz : Nat) (s : ClientPSMoveAPIImpl)
    (hr : Reachable sz s) :
    (∀ arrivals s1, update s arrivals = .ok s1 →
      s1.m_controller_view_map = s.m_controller_view_map ∧
      ∀ d, is_registered s1 d = is_registered s d ∧
        listener_count s1 d = listener_count s d) ∧
    (∀ arrivals, (∀ a ∈ arrivals, well_formed_arrival a = true) →
      ∃ s1, update s arrivals = .ok s1) ∧
    (∀ message message_size r, poll_next_message sz s message message_size = .ok r →
      r.2.2.m_controller_view_map = s.m_controller_view_map ∧ r.2.2.heap = s.heap) ∧
    (∀ result_code request_id response,
      (enqueue_response_message s result_code request_id response).m_controller_view_map =
        s.m_controller_view_map ∧
      (enqueue_response_message s result_code request_id response).heap = s.heap) ∧
    (∀ event_type event,
      (enqueue_event_message s event_type event).m_controller_view_map =
        s.m_controller_view_map ∧
      (enqueue_event_message s event_type event).heap = s.heap) ∧
    (∀ d, ∃ view s1, allocate_controller_view s d = .ok (view, s1) ∧
      (∀ d1, d1 ≠ d →
        map_find s1.m_controller_view_map d1 = map_find s.m_controller_view_map d1 ∧
        registered_view s1 d1 = registered_view s d1 ∧
        listener_count s1 d1 = listener_count s d1) ∧
      s1.m_message_queue = s.m_message_queue ∧
      s1.m_response_reference_cache = s.m_response_reference_cache ∧
      s1.m_event_reference_cache = s.m_event_reference_cache) ∧
    (∀ d view, map_find s.m_controller_view_map d = some view →
      ∃ s1, free_controller_view s view = .ok s1 ∧
        (∀ d1, d1 ≠ d →
          map_find s1.m_controller_view_map d1 = map_find s.m_controller_view_map d1 ∧
          registered_view s1 d1 = registered_view s d1 ∧
          listener_count s1 d1 = listener_count s d1) ∧
        s1.m_message_queue = s.m_message_queue ∧
        s1.m_response_reference_cache = s.m_response_reference_cache ∧
        s1.m_event_reference_cache = s.m_event_reference_cache) := by
  have wf := hr.wellFormed
  refine ⟨?_, ?_, ?_, ?_, ?_, ?_, ?_⟩
  · intro arrivals s1 hu
    obtain ⟨hm, hc⟩ := network_manager_update_registry_frame arrivals hu
    have hm1 : s1.m_controller_view_map = s.m_controller_view_map := hm
    refine ⟨hm1, ?_⟩
    intro d
    refine ⟨by simp only [is_registered, hm1], ?_⟩
    rw [hc d]
    rfl
  · intro arrivals hw
    have wf0 : WellFormed (clear_messages s) := wf
    obtain ⟨s1, h1, _⟩ :=
      network_manager_update_effect arrivals (clear_messages s) hw (Or.inl wf0)
    exact ⟨s1, h1⟩
  · intro message message_size r hp
    obtain ⟨_, _, hm, hh, _⟩ := poll_next_message_frame hp
    exact ⟨hm, hh⟩
  · intro result_code request_id response
    exact enqueue_response_message_registry s _ _ _
  · intro event_type event
    exact enqueue_event_message_registry s _ _
  · intro d
    obtain ⟨view, s1, hal, _, _⟩ := wf.allocate d
    obtain ⟨hq, hrc, hec⟩ := allocate_controller_view_frame hal
    refine ⟨view, s1, hal, ?_, hq, hrc, hec⟩
    intro d1 hd
    have hrv : registered_view s1 d1 = registered_view s d1 := by
      rw [registered_view_allocate wf hal d1]
      simp [hd]
    refine ⟨map_find_allocate_other wf hal hd, hrv, ?_⟩
    rw [listener_count_eq, listener_count_eq, hrv]
  · intro d view hm
    obtain ⟨v, s1, hv, hvd, _, hfree, _⟩ := free_registered_ok wf hm
    obtain ⟨hq, hrc, hec⟩ := free_controller_view_frame hfree
    refine ⟨s1, hfree, ?_, hq, hrc, hec⟩
    intro d1 hd
    have hrv : registered_view s1 d1 = registered_view s d1 := by
      rw [registered_view_free wf hv hfree d1, hvd]
      simp [hd]
    refine ⟨map_find_free_other wf hm hfree hd, hrv, ?_⟩
    rw [listener_count_eq, listener_count_eq, hrv]

/-- Witness of C21: on the pipeline that holds a view for device 7, allocating
device 3 leaves the entry of device 7, the queue and both caches as they were. -/
theorem registry_changed_only_by_allocate_free_witness :
    ∃ view s1, allocate_controller_view pipeline_with_view7 3 = .ok (view, s1) ∧
      (∀ d1, d1 ≠ 3 →
        map_find s1.m_controller_view_map d1 =
          map_find pipeline_with_view7.m_controller_view_map d1 ∧
        registered_view s1 d1 = registered_view pipeline_with_view7 d1 ∧
        listener_count s1 d1 = listener_count pipeline_with_view7 d1) ∧
      s1.m_message_queue = pipeline_with_view7.m_message_queue ∧
      s1.m_response_reference_cache = pipeline_with_view7.m_response_reference_cache ∧
      s1.m_event_reference_cache = pipeline_with_view7.m_event_reference_cache :=
  (registry_changed_only_by_allocate_free 16 pipeline_with_view7
    (Reachable.step (Call.allocate_controller_view 7)
      (Reachable.create "localhost" "9512") rfl)).2.2.2.2.2.1 3

end PSMove
